import Mathlib

/-!
Verification of the mm-audio-api resource-management core.

Shallow embedding of the C sources:
* `src/utils/queue.c`      — `RecompQueue` deferred-command FIFO
* `src/utils/misc.c`       — pointer refcounter and FNV-1a 32-bit hash
* `src/core/samplebank.c`  — samplebank table Add/Replace/Restore + growth
* `sequence.c`             — sequence table Add/Replace + growth (4 parallel arrays)
* `load_status.c`          — load-status arrays and the permanent/persistent/loaded caches
* `soundfont.c`            — sample deep-copy with ADPCM dedup + ref-counted free

Machine integers are modelled as `Nat` with explicit `% 2^w` where the C
code can overflow (`u16` capacities, `u16` refcounts, `u32` hash values).
Heap allocation is modelled by an explicit arena (`Heap`): a monotone
pointer counter plus the list of live allocations; an allocation oracle
(`Bool` per attempt) decides whether each `recomp_alloc` call succeeds.
-/

set_option autoImplicit false

namespace MMAudioApi

/-! ## Heap arena: models recomp_alloc / recomp_free -/

/-- Allocation arena: `nextPtr` is a monotone pointer counter (fresh
addresses), `live` is the list of currently allocated pointers. -/
structure Heap where
  nextPtr : Nat
  live : List Nat
  deriving Repr, DecidableEq

/-- `recomp_alloc`: returns a fresh pointer when the oracle grants the
allocation, `none` when allocation fails. -/
def halloc (h : Heap) (ok : Bool) : Option Nat × Heap :=
  if ok then (some h.nextPtr, ⟨h.nextPtr + 1, h.nextPtr :: h.live⟩) else (none, h)

/-- `recomp_free`: removes a pointer from the live list. -/
def hfree (h : Heap) (p : Nat) : Heap :=
  ⟨h.nextPtr, h.live.erase p⟩

/-! ## RecompQueue (src/utils/queue.c)

`RecompQueueCmd { u32 op, arg0, arg1; union data; }` and
`RecompQueue { entries; u16 numEntries, capacity; }`.  `entries` is the
FIFO list (index 0 = oldest); `numEntries` is its length.  The payload
union is modelled by a type parameter. -/

/-- One queued command: `op`, two `u32` args and a payload. -/
structure RecompQueueCmd (α : Type) where
  op : Nat
  arg0 : Nat
  arg1 : Nat
  data : α
  deriving Repr, DecidableEq

/-- The queue: FIFO entry list plus the `u16` capacity field. -/
structure RecompQueue (α : Type) where
  entries : List (RecompQueueCmd α)
  capacity : Nat
  deriving Repr, DecidableEq

/-- `RecompQueue_Create`: 0 entries, capacity 16 (QUEUE_INITIAL_CAPACITY). -/
def RecompQueue_Create (α : Type) : RecompQueue α :=
  ⟨[], 16⟩

/-- `RecompQueue_Grow`: doubles the `u16` capacity (`capacity << 1`),
keeping entries; fails (returns `none`) when the buffer allocation fails. -/
def RecompQueue_Grow {α : Type} (q : RecompQueue α) (allocOk : Bool) :
    Option (RecompQueue α) :=
  if allocOk then some ⟨q.entries, q.capacity * 2 % 65536⟩ else none

/-- `RecompQueue_Push`: appends `{op, arg0, arg1, data}`; grows first when
full, returning `false` (queue unchanged) if that allocation fails. -/
def RecompQueue_Push {α : Type} (q : RecompQueue α) (op arg0 arg1 : Nat)
    (data : α) (allocOk : Bool) : Bool × RecompQueue α :=
  if q.entries.length ≥ q.capacity then
    match RecompQueue_Grow q allocOk with
    | none => (false, q)
    | some q' => (true, ⟨q'.entries ++ [⟨op, arg0, arg1, data⟩], q'.capacity⟩)
  else
    (true, ⟨q.entries ++ [⟨op, arg0, arg1, data⟩], q.capacity⟩)

/-- `RecompQueue_IsCmdNotQueued`: `true` iff NO entry matches `(op, arg0, arg1)`. -/
def RecompQueue_IsCmdNotQueued {α : Type} (q : RecompQueue α)
    (op arg0 arg1 : Nat) : Bool :=
  ! q.entries.any fun c => c.op == op && c.arg0 == arg0 && c.arg1 == arg1

/-- `RecompQueue_PushIfNotQueued`: push only when no entry matches the
`(op, arg0, arg1)` triple; a duplicate is discarded (first-registered wins). -/
def RecompQueue_PushIfNotQueued {α : Type} (q : RecompQueue α)
    (op arg0 arg1 : Nat) (data : α) (allocOk : Bool) : Bool × RecompQueue α :=
  if ! RecompQueue_IsCmdNotQueued q op arg0 arg1 then (false, q)
  else RecompQueue_Push q op arg0 arg1 data allocOk

/-- `RecompQueue_Drain`: hands the entries to the callback in FIFO order
and resets `numEntries` to 0 while the buffer (capacity) stays allocated.
The drained command list is returned for the caller's callback loop. -/
def RecompQueue_Drain {α : Type} (q : RecompQueue α) :
    List (RecompQueueCmd α) × RecompQueue α :=
  (q.entries, ⟨[], q.capacity⟩)

/-- `RecompQueue_Empty`: discard all entries without invoking a callback. -/
def RecompQueue_Empty {α : Type} (q : RecompQueue α) : RecompQueue α :=
  ⟨[], q.capacity⟩

/-! ## Refcounter (src/utils/misc.c)

Backed by a `u32 -> u16` memory hashmap, modelled as an association list
(ptr, count).  The recomp hashmap zero-initialises newly created slots. -/

/-- Replace the value of the first pair with the given key (append when absent). -/
def assocSet {β : Type} : List (Nat × β) → Nat → β → List (Nat × β)
  | [], k, v => [(k, v)]
  | (k', v') :: t, k, v =>
      if k' = k then (k, v) :: t else (k', v') :: assocSet t k v

/-- Remove the first pair with the given key. -/
def assocErase {β : Type} : List (Nat × β) → Nat → List (Nat × β)
  | [], _ => []
  | (k', v') :: t, k => if k' = k then t else (k', v') :: assocErase t k

/-- `refcounter_inc`: create a zero-initialised entry if the pointer is
untracked, then increment its `u16` count, returning the new count. -/
def refcounter_inc (store : List (Nat × Nat)) (ptr : Nat) :
    Nat × List (Nat × Nat) :=
  let store1 := if (store.lookup ptr).isSome then store else store ++ [(ptr, 0)]
  let v := (store1.lookup ptr).getD 0
  let v' := (v + 1) % 65536
  (v', assocSet store1 ptr v')

/-- `refcounter_dec`: missing pointer returns 0 leaving the store alone;
otherwise decrement the `u16` count, erasing the entry when it hits 0. -/
def refcounter_dec (store : List (Nat × Nat)) (ptr : Nat) :
    Nat × List (Nat × Nat) :=
  match store.lookup ptr with
  | none => (0, store)
  | some v =>
      let v' := (v + 65535) % 65536
      if v' = 0 then (0, assocErase store ptr) else (v', assocSet store ptr v')

/-- `refcounter_get`: current count, 0 when untracked. -/
def refcounter_get (store : List (Nat × Nat)) (ptr : Nat) : Nat :=
  (store.lookup ptr).getD 0

/-! ## FNV-1a 32-bit hash (src/utils/misc.c) -/

/-- `FNV1_32A_INIT` = 0x811c9dc5. -/
def FNV1_32A_INIT : Nat := 0x811c9dc5

/-- One step of `fnv_32a_buf`: XOR in the byte, then add shifted copies of
the accumulator (equivalent to multiplying by the FNV prime 0x01000193),
all in `u32` arithmetic. -/
def fnvMix (hval b : Nat) : Nat :=
  let h := (hval ^^^ b) % 4294967296
  (h + h * 2 + h * 16 + h * 128 + h * 256 + h * 16777216) % 4294967296

/-- `fnv_32a_buf`: fold the mix step over the buffer bytes. -/
def fnv_32a_buf (buf : List Nat) (hval : Nat) : Nat :=
  buf.foldl fnvMix hval

/-! ## Lifecycle phases (core/init.h, documented in the repository guide)

`gAudioApiInitPhase`: NOT_READY(0) -> QUEUEING(1) -> QUEUED(2) -> READY(3).
Per init.c's documented order, the phase is set to QUEUED before the
ReadyInternal callbacks drain the init queues, and to READY afterwards. -/

def AUDIOAPI_INIT_NOT_READY : Nat := 0

def AUDIOAPI_INIT_QUEUEING : Nat := 1

def AUDIOAPI_INIT_QUEUED : Nat := 2

def AUDIOAPI_INIT_READY : Nat := 3

/-- `AudioTableEntry { romAddr, size, medium, cachePolicy, shortData1..3 }`
(field values as machine integers). -/
structure AudioTableEntry where
  romAddr : Nat
  size : Nat
  medium : Nat
  cachePolicy : Nat
  shortData1 : Nat
  shortData2 : Nat
  shortData3 : Nat
  deriving Repr, DecidableEq, Inhabited

/-- The all-zero entry written by `Lib_MemSet` into grown table regions. -/
def zeroEntry : AudioTableEntry := ⟨0, 0, 0, 0, 0, 0, 0⟩

/-- Pointwise update of a table-contents function. -/
def tblUpdate {β : Type} (f : Nat → β) (i : Nat) (v : β) : Nat → β :=
  fun j => if j = i then v else f j

/-! ## Samplebank manager (src/core/samplebank.c)

`gAudioCtx.sampleBankTable` (header.numEntries + entries) together with
`sampleBankTableCapacity` and the init-phase `sampleBankQueue`.  The queue
payload is the heap-copied `AudioTableEntry` (captured by value). -/

/-- `AUDIOAPI_CMD_OP_REPLACE_SAMPLEBANK` (the only samplebank queue op). -/
def AUDIOAPI_CMD_OP_REPLACE_SAMPLEBANK : Nat := 0

/-- State touched by the samplebank API: phase, table and init queue. -/
structure SampleBankState where
  phase : Nat
  numEntries : Nat
  capacity : Nat
  entries : Nat → AudioTableEntry
  queue : RecompQueue AudioTableEntry

/-- Reading `gAudioCtx.sampleBankTable->entries[id]` (the spec's `Get`). -/
def SampleBank_Get (s : SampleBankState) (id : Nat) : AudioTableEntry :=
  s.entries id

/-- `AudioApi_GrowSampleBankTables`: one allocation; on success the `u16`
capacity doubles, old entries are copied and the region beyond the old
capacity is zero-filled; on failure nothing changes and `false` returns. -/
def AudioApi_GrowSampleBankTables (s : SampleBankState) (allocOk : Bool) :
    Bool × SampleBankState :=
  if allocOk then
    (true, { s with
      capacity := s.capacity * 2 % 65536,
      entries := fun i => if i < s.capacity then s.entries i else zeroEntry })
  else (false, s)

/-- `AudioApi_AddSampleBank`: rejected while NOT_READY; otherwise the next
bank id is `numEntries` (no sentinel skipping), growing the table first if
the id reaches capacity; the entry is written and `numEntries` becomes
`id + 1`.  Returns `none` for the C `-1` failure. -/
def AudioApi_AddSampleBank (s : SampleBankState) (entry : AudioTableEntry)
    (allocOk : Bool) : Option Nat × SampleBankState :=
  if s.phase = AUDIOAPI_INIT_NOT_READY then (none, s)
  else
    let newBankId := s.numEntries
    let grown :=
      if newBankId ≥ s.capacity then AudioApi_GrowSampleBankTables s allocOk
      else (true, s)
    match grown with
    | (false, s') => (none, s')
    | (true, s') =>
        (some newBankId, { s' with
          numEntries := newBankId + 1,
          entries := tblUpdate s'.entries newBankId entry })

/-- `AudioApi_ReplaceSampleBank`: NOT_READY -> no-op; QUEUEING -> heap-copy
the entry (`copyAllocOk`) and `PushIfNotQueued` it keyed on
`(REPLACE_SAMPLEBANK, bankId, 0)`; later phases -> immediate overwrite when
`bankId` is in range. -/
def AudioApi_ReplaceSampleBank (s : SampleBankState) (bankId : Nat)
    (entry : AudioTableEntry) (copyAllocOk queueAllocOk : Bool) :
    SampleBankState :=
  if s.phase = AUDIOAPI_INIT_NOT_READY then s
  else if s.phase = AUDIOAPI_INIT_QUEUEING then
    if copyAllocOk then
      { s with queue := (RecompQueue_PushIfNotQueued s.queue
          AUDIOAPI_CMD_OP_REPLACE_SAMPLEBANK bankId 0 entry queueAllocOk).2 }
    else s
  else if bankId ≥ s.numEntries then s
  else { s with entries := tblUpdate s.entries bankId entry }

/-- `AudioApi_SampleBankQueueDrain`: dispatch one drained command; the
replace op re-invokes `AudioApi_ReplaceSampleBank` (then frees the copy). -/
def AudioApi_SampleBankQueueDrain (s : SampleBankState)
    (cmd : RecompQueueCmd AudioTableEntry) : SampleBankState :=
  if cmd.op = AUDIOAPI_CMD_OP_REPLACE_SAMPLEBANK then
    AudioApi_ReplaceSampleBank s cmd.arg0 cmd.data true true
  else s

/-- `AudioApi_SampleBankReady` (ReadyInternal callback): drain the init
queue FIFO through the dispatch above, then destroy the queue. -/
def AudioApi_SampleBankReady (s : SampleBankState) : SampleBankState :=
  let s' := s.queue.entries.foldl AudioApi_SampleBankQueueDrain s
  { s' with queue := ⟨[], s'.queue.capacity⟩ }

/-- The Queueing -> Ready lifecycle transition as init.c sequences it:
phase := QUEUED, ReadyInternal drains the queue, phase := READY. -/
def SampleBank_TransitionToReady (s : SampleBankState) : SampleBankState :=
  let s₁ := { s with phase := AUDIOAPI_INIT_QUEUED }
  let s₂ := AudioApi_SampleBankReady s₁
  { s₂ with phase := AUDIOAPI_INIT_READY }

/-! ## Sequence manager (sequence.c)

Same pattern as the samplebank manager plus: sentinel id skipping in Add
(`NA_BGM_DISABLED`/`NA_BGM_UNKNOWN` low bytes 0xFF/0xFE) and the special
ignore of `NA_BGM_FROG_SONG` in Replace.  Only the
`AUDIOAPI_CMD_OP_REPLACE_SEQUENCE` queue op mutates the state modelled
here (the font/flags ops touch arrays outside this model). -/

/-- `AUDIOAPI_CMD_OP_REPLACE_SEQUENCE` (first enumerator of the queue ops). -/
def AUDIOAPI_CMD_OP_REPLACE_SEQUENCE : Nat := 0

/-- `NA_BGM_FROG_SONG` (seq 90): replacement requests for it are ignored. -/
def NA_BGM_FROG_SONG : Nat := 90

/-- Sequence-manager state: phase, table, init queue, and the one-shot
frog-song log flag (`sLoggedFrogSongReplaceIgnore`). -/
structure SequenceState where
  phase : Nat
  numEntries : Nat
  capacity : Nat
  entries : Nat → AudioTableEntry
  queue : RecompQueue AudioTableEntry
  loggedFrogIgnore : Bool

/-- Reading `gAudioCtx.sequenceTable->entries[id]` (the spec's `Get`). -/
def Sequence_Get (s : SequenceState) (id : Nat) : AudioTableEntry :=
  s.entries id

/-- The `while ((newSeqId & 0xFF) == 0xFE || (newSeqId & 0xFF) == 0xFF)
newSeqId++;` loop of `AudioApi_AddSequence`, unrolled: it runs at most
twice, since after leaving a 0xFE/0xFF low byte the next low byte is 0x00. -/
def skipSentinelId (id : Nat) : Nat :=
  if id % 256 = 0xFE ∨ id % 256 = 0xFF then
    if (id + 1) % 256 = 0xFE ∨ (id + 1) % 256 = 0xFF then id + 2 else id + 1
  else id

/-- `AudioApi_GrowSequenceTables`, observed through the sequence table
alone (the full four-buffer transactional version, with its heap effects,
is `AudioApi_GrowSequenceTablesM` below): capacity doubles (`u16`),
entries are copied and the new region zero-filled. -/
def AudioApi_GrowSequenceTables (s : SequenceState) (allocOk : Bool) :
    Bool × SequenceState :=
  if allocOk then
    (true, { s with
      capacity := s.capacity * 2 % 65536,
      entries := fun i => if i < s.capacity then s.entries i else zeroEntry })
  else (false, s)

/-- `AudioApi_AddSequence`: rejected while NOT_READY; the next id is
`numEntries` advanced past sentinel low bytes 0xFE/0xFF; the table grows
if the id reaches capacity; the entry is written and
`numEntries = numSequences = id + 1`. -/
def AudioApi_AddSequence (s : SequenceState) (entry : AudioTableEntry)
    (allocOk : Bool) : Option Nat × SequenceState :=
  if s.phase = AUDIOAPI_INIT_NOT_READY then (none, s)
  else
    let newSeqId := skipSentinelId s.numEntries
    let grown :=
      if newSeqId ≥ s.capacity then AudioApi_GrowSequenceTables s allocOk
      else (true, s)
    match grown with
    | (false, s') => (none, s')
    | (true, s') =>
        (some newSeqId, { s' with
          numEntries := newSeqId + 1,
          entries := tblUpdate s'.entries newSeqId entry })

/-- `AudioApi_ReplaceSequence`: NOT_READY -> no-op; the frog-song id is
ignored at every later phase (only the one-shot log flag is set);
QUEUEING -> heap-copy and `PushIfNotQueued` keyed on
`(REPLACE_SEQUENCE, seqId, 0)`; later phases -> immediate overwrite when
`seqId` is in range. -/
def AudioApi_ReplaceSequence (s : SequenceState) (seqId : Nat)
    (entry : AudioTableEntry) (copyAllocOk queueAllocOk : Bool) :
    SequenceState :=
  if s.phase = AUDIOAPI_INIT_NOT_READY then s
  else if seqId = NA_BGM_FROG_SONG then { s with loggedFrogIgnore := true }
  else if s.phase = AUDIOAPI_INIT_QUEUEING then
    if copyAllocOk then
      { s with queue := (RecompQueue_PushIfNotQueued s.queue
          AUDIOAPI_CMD_OP_REPLACE_SEQUENCE seqId 0 entry queueAllocOk).2 }
    else s
  else if seqId ≥ s.numEntries then s
  else { s with entries := tblUpdate s.entries seqId entry }

/-- `AudioApi_SequenceQueueDrain` restricted to the replace op (the
font/flags ops act on arrays outside this state). -/
def AudioApi_SequenceQueueDrain (s : SequenceState)
    (cmd : RecompQueueCmd AudioTableEntry) : SequenceState :=
  if cmd.op = AUDIOAPI_CMD_OP_REPLACE_SEQUENCE then
    AudioApi_ReplaceSequence s cmd.arg0 cmd.data true true
  else s

/-- `AudioApi_SequenceReady`: drain the init queue FIFO, then destroy it. -/
def AudioApi_SequenceReady (s : SequenceState) : SequenceState :=
  let s' := s.queue.entries.foldl AudioApi_SequenceQueueDrain s
  { s' with queue := ⟨[], s'.queue.capacity⟩ }

/-- Queueing -> Ready transition for the sequence manager (init.c order:
phase := QUEUED, drain, phase := READY). -/
def Sequence_TransitionToReady (s : SequenceState) : SequenceState :=
  let s₁ := { s with phase := AUDIOAPI_INIT_QUEUED }
  let s₂ := AudioApi_SequenceReady s₁
  { s₂ with phase := AUDIOAPI_INIT_READY }

/-! ## Transactional table growth with explicit heap (sequence.c / samplebank.c)

`AudioApi_GrowSequenceTables` resizes four index-aligned buffers as one
logical unit: the sequence `AudioTable`, the rebuilt sequence-font table
(`AudioApi_RebuildSequenceFontTable`, one allocation), `sExtSeqFlags` and
`sExtSeqLoadStatus`.  All four are allocated first; if any allocation
fails, every buffer newly allocated in the attempt is freed (in
declaration order, NULL-skipping) and `false` returns with nothing else
touched.  On success the old buffers are freed when they were
`recomp_alloc`'d, the globals are swapped and the `u16` capacity doubles.
The allocation oracle gives the outcome of the k-th `recomp_alloc` of the
call (k = 0..3). -/

/-- One fixed-stride sequence-font-table record: a font count and the
font-id bytes (`(numFonts, fontIds[4])`). -/
structure FontMapEntry where
  numFonts : Nat
  fonts : Nat → Nat

/-- The zero-filled font record produced by `Lib_MemSet`. -/
def zeroFontMapEntry : FontMapEntry := ⟨0, fun _ => 0⟩

/-- The record `AudioApi_RebuildSequenceFontTable` writes for one seqId:
the old count and font bytes are copied (`numFonts + 1` bytes), bytes
beyond the old count stay zero. -/
def rebuiltFontEntry (e : FontMapEntry) : FontMapEntry :=
  ⟨e.numFonts, fun j => if j < e.numFonts then e.fonts j else 0⟩

/-- All state `AudioApi_GrowSequenceTables` reads or writes: the heap
arena, the capacity, and per buffer its pointer, whether it came from
`recomp_alloc` (the `IS_RECOMP_ALLOC` test) and its contents. -/
structure SeqTablesState where
  heap : Heap
  capacity : Nat
  seqPtr : Nat
  seqIsRecompAlloc : Bool
  seqNumEntries : Nat
  seqEntries : Nat → AudioTableEntry
  fontPtr : Nat
  fontIsRecompAlloc : Bool
  fontEntries : Nat → FontMapEntry
  flagsPtr : Nat
  flagsIsRecompAlloc : Bool
  flags : Nat → Nat
  statusPtr : Nat
  statusIsRecompAlloc : Bool
  status : Nat → Nat

/-- Free a pointer only when it was `recomp_alloc`'d (`IS_RECOMP_ALLOC`). -/
def freeIfRecompAlloc (h : Heap) (isRecomp : Bool) (p : Nat) : Heap :=
  if isRecomp then hfree h p else h

/-- `AudioApi_GrowSequenceTables`: the four-buffer all-or-nothing growth. -/
def AudioApi_GrowSequenceTablesM (s : SeqTablesState) (oracle : Nat → Bool) :
    Bool × SeqTablesState :=
  -- Grow gAudioCtx.sequenceTable
  match halloc s.heap (oracle 0) with
  | (none, h1) => (false, { s with heap := h1 })
  | (some p1, h1) =>
    -- Grow gAudioCtx.sequenceFontTable (AudioApi_RebuildSequenceFontTable)
    match halloc h1 (oracle 1) with
    | (none, h2) => (false, { s with heap := hfree h2 p1 })
    | (some p2, h2) =>
      -- Grow sExtSeqFlags
      match halloc h2 (oracle 2) with
      | (none, h3) => (false, { s with heap := hfree (hfree h3 p1) p2 })
      | (some p3, h3) =>
        -- Grow sExtSeqLoadStatus
        match halloc h3 (oracle 3) with
        | (none, h4) =>
            (false, { s with heap := hfree (hfree (hfree h4 p1) p2) p3 })
        | (some p4, h4) =>
          -- Free old tables (IS_RECOMP_ALLOC-guarded), store new tables
          let h5 := freeIfRecompAlloc h4 s.seqIsRecompAlloc s.seqPtr
          let h6 := freeIfRecompAlloc h5 s.fontIsRecompAlloc s.fontPtr
          let h7 := freeIfRecompAlloc h6 s.flagsIsRecompAlloc s.flagsPtr
          let h8 := freeIfRecompAlloc h7 s.statusIsRecompAlloc s.statusPtr
          (true,
            { heap := h8,
              capacity := s.capacity * 2 % 65536,
              seqPtr := p1,
              seqIsRecompAlloc := true,
              seqNumEntries := s.seqNumEntries,
              seqEntries := fun i =>
                if i < s.capacity then s.seqEntries i else zeroEntry,
              fontPtr := p2,
              fontIsRecompAlloc := true,
              fontEntries := fun i =>
                if i < s.capacity then rebuiltFontEntry (s.fontEntries i)
                else zeroFontMapEntry,
              flagsPtr := p3,
              flagsIsRecompAlloc := true,
              flags := fun i => if i < s.capacity then s.flags i else 0,
              statusPtr := p4,
              statusIsRecompAlloc := true,
              status := fun i => if i < s.capacity then s.status i else 0 })

/-- State `AudioApi_GrowSampleBankTables` reads or writes (one buffer). -/
structure SampleBankTablesState where
  heap : Heap
  capacity : Nat
  tblPtr : Nat
  tblIsRecompAlloc : Bool
  numEntries : Nat
  entries : Nat → AudioTableEntry

/-- `AudioApi_GrowSampleBankTables` with its heap effects: a single
allocation; on failure nothing was allocated so nothing needs freeing and
the state is untouched. -/
def AudioApi_GrowSampleBankTablesM (s : SampleBankTablesState)
    (oracle : Nat → Bool) : Bool × SampleBankTablesState :=
  match halloc s.heap (oracle 0) with
  | (none, h1) => (false, { s with heap := h1 })
  | (some p1, h1) =>
      let h2 := freeIfRecompAlloc h1 s.tblIsRecompAlloc s.tblPtr
      (true,
        { heap := h2,
          capacity := s.capacity * 2 % 65536,
          tblPtr := p1,
          tblIsRecompAlloc := true,
          numEntries := s.numEntries,
          entries := fun i => if i < s.capacity then s.entries i else zeroEntry })

/-! ## Load status and fake caches (load_status.c)

Three caches keyed by `tableType << 24 | realId`:
permanent (U32Hashset), persistent (16-entry LIFO stack array) and loaded
(U32Hashset); plus the extended load-status arrays `sExtSeqLoadStatus`
and `sExtSoundFontLoadStatus`.  Hashsets are modelled as key lists with
idempotent insert.  `AudioLoad_GetRealTableIndex` is external to these
sources (it resolves high-byte bank ids); it is passed in as a function
parameter `getReal`. -/

/-- `SEQUENCE_TABLE` (table type 0). -/
def SEQUENCE_TABLE : Nat := 0

/-- `FONT_TABLE` (table type 1). -/
def FONT_TABLE : Nat := 1

/-- `SAMPLE_TABLE` (table type 2). -/
def SAMPLE_TABLE : Nat := 2

/-- `LOAD_STATUS_NOT_LOADED` = 0. -/
def LOAD_STATUS_NOT_LOADED : Nat := 0

/-- `LOAD_STATUS_COMPLETE` = 2. -/
def LOAD_STATUS_COMPLETE : Nat := 2

/-- `LOAD_STATUS_PERMANENT` = 5. -/
def LOAD_STATUS_PERMANENT : Nat := 5

/-- `CACHE_EITHER` = 2 (AudioCacheType). -/
def CACHE_EITHER : Nat := 2

/-- `CACHE_PERMANENT` = 3 (AudioCacheType). -/
def CACHE_PERMANENT : Nat := 3

/-- `CACHE_LOAD_PERMANENT` = 0 (AudioCacheLoadType). -/
def CACHE_LOAD_PERMANENT : Nat := 0

/-- `CACHE_LOAD_PERSISTENT` = 1 (AudioCacheLoadType). -/
def CACHE_LOAD_PERSISTENT : Nat := 1

/-- `MAX_PERSISTENT_CACHE_ENTRIES` = 16. -/
def MAX_PERSISTENT_CACHE_ENTRIES : Nat := 16

/-- `PersistentCacheEntry { s16 tableType; u32 id; }` (id is the realId). -/
structure PersistentCacheEntry where
  tableType : Nat
  id : Nat
  deriving Repr, DecidableEq

/-- Hashset insert: idempotent membership insert. -/
def hsInsert (s : List Nat) (k : Nat) : List Nat :=
  if s.contains k then s else k :: s

/-- The cache key `tableType << 24 | realId`. -/
def cacheKey (tableType realId : Nat) : Nat :=
  (tableType <<< 24) ||| realId

/-- State of load_status.c: the three caches, the two extended status
arrays, and the entry counts of the font/sequence tables they range over. -/
structure LoadStatusState where
  persistentCache : List PersistentCacheEntry
  permanentCache : List Nat
  loadedCache : List Nat
  seqLoadStatus : Nat → Nat
  fontLoadStatus : Nat → Nat
  seqNumEntries : Nat
  fontNumEntries : Nat

/-- `AudioApi_GetTableEntryLoadStatus`: sentinel low bytes 0xFF ("none")
and 0xFE ("previous") short-circuit to PERMANENT; otherwise read the
extended array of the table type (other types report NOT_LOADED). -/
def AudioApi_GetTableEntryLoadStatus (getReal : Nat → Nat → Nat)
    (st : LoadStatusState) (tableType id : Nat) : Nat :=
  if id % 256 = 0xFF ∨ id % 256 = 0xFE then LOAD_STATUS_PERMANENT
  else
    let realId := getReal tableType id
    if tableType = SEQUENCE_TABLE then st.seqLoadStatus realId
    else if tableType = FONT_TABLE then st.fontLoadStatus realId
    else LOAD_STATUS_NOT_LOADED

/-- `AudioApi_SetTableEntryLoadStatus`: refuses sentinel low bytes,
otherwise writes the extended array of the table type. -/
def AudioApi_SetTableEntryLoadStatus (getReal : Nat → Nat → Nat)
    (st : LoadStatusState) (tableType id status : Nat) : LoadStatusState :=
  if id % 256 = 0xFF ∨ id % 256 = 0xFE then st
  else
    let realId := getReal tableType id
    if tableType = SEQUENCE_TABLE then
      { st with seqLoadStatus := tblUpdate st.seqLoadStatus realId status }
    else if tableType = FONT_TABLE then
      { st with fontLoadStatus := tblUpdate st.fontLoadStatus realId status }
    else st

/-- One iteration of a reset loop: set the entry to NOT_LOADED unless its
(sentinel-aware) status reads PERMANENT. -/
def resetLoopStep (getReal : Nat → Nat → Nat) (tableType : Nat)
    (st : LoadStatusState) (i : Nat) : LoadStatusState :=
  if AudioApi_GetTableEntryLoadStatus getReal st tableType i ≠
      LOAD_STATUS_PERMANENT then
    AudioApi_SetTableEntryLoadStatus getReal st tableType i
      LOAD_STATUS_NOT_LOADED
  else st

/-- `AudioHeap_ResetLoadStatus`: clear the persistent stack, then sweep
the font table and the sequence table, resetting every non-PERMANENT
entry to NOT_LOADED. -/
def AudioHeap_ResetLoadStatus (getReal : Nat → Nat → Nat)
    (st : LoadStatusState) : LoadStatusState :=
  let st0 := { st with persistentCache := [] }
  let st1 := (List.range st0.fontNumEntries).foldl
    (resetLoopStep getReal FONT_TABLE) st0
  (List.range st1.seqNumEntries).foldl (resetLoopStep getReal SEQUENCE_TABLE) st1

/-- `IS_KSEG0`: the address is in the MIPS KSEG0 window
[0x80000000, 0xA0000000) — i.e. the data is RAM-resident rather than a
ROM/origin-medium offset. -/
def isKseg0 (addr : Nat) : Bool :=
  0x80000000 ≤ addr ∧ addr < 0xA0000000

/-- `AudioHeap_SearchCaches`: report the resource's RAM address (stored in
the entry's `romAddr` field) only if the key is in the permanent set when
CACHE_PERMANENT was requested, the key is in the loaded set, and the
`romAddr` is KSEG0 (memory-resident); otherwise NULL.  `tables t r` is
`AudioLoad_GetLoadTable(t)->entries[r].romAddr`. -/
def AudioHeap_SearchCaches (getReal : Nat → Nat → Nat)
    (tables : Nat → Nat → Nat) (st : LoadStatusState)
    (tableType cache id : Nat) : Option Nat :=
  let realId := getReal tableType id
  let key := cacheKey tableType realId
  if ¬ st.permanentCache.contains key ∧ cache = CACHE_PERMANENT then none
  else if ¬ st.loadedCache.contains key then none
  else if ¬ isKseg0 (tables tableType realId) then none
  else some (tables tableType realId)

/-- `AudioApi_PushFakeCache`: always insert into the loaded set; insert
into the permanent set under CACHE_LOAD_PERMANENT; under
CACHE_LOAD_PERSISTENT append `(tableType, realId)` to the persistent
stack only when fewer than 16 entries are held and no entry with the same
(tableType, realId) is already present. -/
def AudioApi_PushFakeCache (getReal : Nat → Nat → Nat)
    (st : LoadStatusState) (tableType cachePolicy id : Nat) :
    LoadStatusState :=
  let realId := getReal tableType id
  let key := cacheKey tableType realId
  let st1 := { st with loadedCache := hsInsert st.loadedCache key }
  let st2 :=
    if cachePolicy = CACHE_LOAD_PERMANENT then
      { st1 with permanentCache := hsInsert st1.permanentCache key }
    else st1
  if cachePolicy = CACHE_LOAD_PERSISTENT ∧
      st2.persistentCache.length < MAX_PERSISTENT_CACHE_ENTRIES then
    if st2.persistentCache.any fun e =>
        e.tableType = tableType ∧ e.id = realId then st2
    else { st2 with
      persistentCache := st2.persistentCache ++ [⟨tableType, realId⟩] }
  else st2

/-- Scan a list from its end for the last element satisfying `p`; return
it together with the list with that one element removed (the C loop scans
the stack top-down and shifts the tail left by one). -/
def removeLastMatching {α : Type} (p : α → Bool) :
    List α → Option (α × List α)
  | [] => none
  | x :: xs =>
      match removeLastMatching p xs with
      | some (e, xs') => some (e, x :: xs')
      | none => if p x then some (x, xs) else none

/-- `AudioHeap_PopPersistentCache`: remove the most recent persistent
entry of the requested table type (skipping non-matching entries), fire
`AudioHeap_DiscardFont` for fonts (returned as the event value), and
reset that entry's load status to NOT_LOADED; no matching entry -> no-op. -/
def AudioHeap_PopPersistentCache (getReal : Nat → Nat → Nat)
    (st : LoadStatusState) (tableType : Nat) :
    Option Nat × LoadStatusState :=
  match removeLastMatching (fun e => e.tableType == tableType)
      st.persistentCache with
  | none => (none, st)
  | some (e, rest) =>
      let discardedFont := if tableType = FONT_TABLE then some e.id else none
      let st1 := AudioApi_SetTableEntryLoadStatus getReal st tableType e.id
        LOAD_STATUS_NOT_LOADED
      (discardedFont, { st1 with persistentCache := rest })

/-! ## Sample copy with ADPCM dedup and refcounting (soundfont.c)

`AudioApi_CopySample` deep-copies a `Sample` (struct + `AdpcmLoop` +
`AdpcmBook`).  For the ADPCM codecs it first hashes the sample
(`AudioApi_HashSample`: FNV-1a over the struct minus its last two
pointers, then the loop bytes — `AdpcmLoop` when `header.count != 0`,
header only otherwise — then the book bytes of size
`header + 8 * order * numPredictors` coefficients) and, on a hashmap hit,
increments the existing copy's refcount and returns it with no further
comparison.  A fresh copy registers under its hash with refcount 1 only
when the hash is nonzero.  `AudioApi_FreeSample` decrements the refcount
and frees loop, book and struct only on reaching zero.

A `Sample` value carries the byte content that the C code hashes and
copies; the loop/book components carry their source pointers because the
`Lib_MemCpy(copy, src, sizeof(Sample))` makes the partially built copy
alias them on the allocation-failure paths.  The `IS_KSEG0(sampleAddr)`
branch only rewrites header fields of the copy (medium, unk_bit26,
isRelocated), none of which this allocation-level abstraction tracks. -/

/-- `CODEC_ADPCM` = 0. -/
def CODEC_ADPCM : Nat := 0

/-- `CODEC_SMALL_ADPCM` = 3. -/
def CODEC_SMALL_ADPCM : Nat := 3

/-- A source `Sample` as the copy/hash code observes it: the codec, the
hashed head bytes (struct minus the loop/book pointers), and optional
loop/book, each a source pointer paired with its copied/hashed bytes. -/
structure Sample where
  codec : Nat
  headerBytes : List Nat
  loop : Option (Nat × List Nat)
  book : Option (Nat × List Nat)
  deriving Repr, DecidableEq

/-- A heap-resident copied `Sample` struct: the loop and book pointers it
holds (what `AudioApi_FreeSample` will free). -/
structure HSample where
  loopPtr : Option Nat
  bookPtr : Option Nat
  deriving Repr, DecidableEq

/-- The state the copy/free code manipulates: the allocation arena, the
contents of allocated `Sample` structs, the `sampleHashmap`
(hash -> Sample pointer) and the refcounter store. -/
structure DedupState where
  heap : Heap
  store : List (Nat × HSample)
  sampleHashmap : List (Nat × Nat)
  refcounter : List (Nat × Nat)

/-- `AudioApi_HashSample`: chained FNV-1a over the struct head bytes, the
loop bytes (when a loop is present) and the book bytes (when present). -/
def AudioApi_HashSample (s : Sample) : Nat :=
  let h0 := fnv_32a_buf s.headerBytes FNV1_32A_INIT
  let h1 :=
    match s.loop with
    | none => h0
    | some l => fnv_32a_buf l.2 h0
  match s.book with
  | none => h1
  | some b => fnv_32a_buf b.2 h1

/-- `recomp_free` behind a NULL check (`if (ptr) recomp_free(ptr)`). -/
def hfreeOpt (h : Heap) : Option Nat → Heap
  | some q => hfree h q
  | none => h

/-- The body of `AudioApi_FreeSample` given the copy's loop/book pointer
fields: decrement the refcount and stop when it is still positive;
otherwise free loop, book and the struct itself. -/
def freeSampleRaw (st : DedupState) (p : Nat)
    (loopPtr bookPtr : Option Nat) : DedupState :=
  let dec := refcounter_dec st.refcounter p
  if dec.1 > 0 then { st with refcounter := dec.2 }
  else
    { st with
      heap := hfree (hfreeOpt (hfreeOpt st.heap loopPtr) bookPtr) p,
      refcounter := dec.2,
      store := assocErase st.store p }

/-- `AudioApi_FreeSample` on an allocated sample handle: read the copy's
loop/book fields from memory and run the ref-counted free. -/
def AudioApi_FreeSample (st : DedupState) (p : Nat) : DedupState :=
  match st.store.lookup p with
  | none => st
  | some hs => freeSampleRaw st p hs.loopPtr hs.bookPtr

/-- Final step of `AudioApi_CopySample`: record the fully built copy, and
when the hash is nonzero give it refcount 1 and register it in the
`sampleHashmap`. -/
def copySampleFinish (st : DedupState) (hval p : Nat)
    (loopPtr bookPtr : Option Nat) (h : Heap) : Option Nat × DedupState :=
  let st1 := { st with heap := h, store := (p, ⟨loopPtr, bookPtr⟩) :: st.store }
  if hval ≠ 0 then
    let inc := refcounter_inc st1.refcounter p
    (some p, { st1 with
      refcounter := inc.2,
      sampleHashmap := assocSet st1.sampleHashmap hval p })
  else (some p, st1)

/-- Book-copy step of `AudioApi_CopySample` (oracle attempt 2): on
allocation failure the partial copy is freed — its loop field holds the
fresh loop copy (or NULL) and its book field is NULL. -/
def copySampleBook (st : DedupState) (src : Sample) (hval : Nat)
    (oracle : Nat → Bool) (p : Nat) (loopPtr : Option Nat) (h : Heap) :
    Option Nat × DedupState :=
  match src.book with
  | some _ =>
      match halloc h (oracle 2) with
      | (none, h2) => (none, freeSampleRaw { st with heap := h2 } p loopPtr none)
      | (some r, h2) => copySampleFinish st hval p loopPtr (some r) h2
  | none => copySampleFinish st hval p loopPtr none h

/-- Allocation phase of `AudioApi_CopySample` (oracle attempts 0 = struct,
1 = loop, 2 = book).  After the struct memcpy the copy aliases the
source's loop/book pointers, so when the loop allocation fails the free
of the partial copy releases the source's book pointer. -/
def copySampleAlloc (st : DedupState) (src : Sample) (hval : Nat)
    (oracle : Nat → Bool) : Option Nat × DedupState :=
  match halloc st.heap (oracle 0) with
  | (none, h0) => (none, { st with heap := h0 })
  | (some p, h0) =>
      match src.loop with
      | some _ =>
          match halloc h0 (oracle 1) with
          | (none, h1) =>
              (none, freeSampleRaw { st with heap := h1 } p none
                (Option.map Prod.fst src.book))
          | (some q, h1) => copySampleBook st src hval oracle p (some q) h1
      | none => copySampleBook st src hval oracle p none h0

/-- `AudioApi_CopySample`: for the ADPCM codecs hash the source and return
the existing ref-counted copy on a `sampleHashmap` hit (no byte
comparison); otherwise (including non-ADPCM codecs, where the hash stays
0) deep-copy struct, loop and book. -/
def AudioApi_CopySample (st : DedupState) (src : Sample)
    (oracle : Nat → Bool) : Option Nat × DedupState :=
  if src.codec = CODEC_ADPCM ∨ src.codec = CODEC_SMALL_ADPCM then
    let hval := AudioApi_HashSample src
    match st.sampleHashmap.lookup hval with
    | some dupe =>
        let inc := refcounter_inc st.refcounter dupe
        (some dupe, { st with refcounter := inc.2 })
    | none => copySampleAlloc st src hval oracle
  else copySampleAlloc st src 0 oracle

/-! ## Add-call traces -/

/-- Run a sequence of `AudioApi_AddSequence` calls (allocation succeeding),
collecting the returned ids. -/
def addSeqTrace (s : SequenceState) :
    List AudioTableEntry → List (Option Nat) × SequenceState
  | [] => ([], s)
  | e :: es =>
      let r := AudioApi_AddSequence s e true
      let rest := addSeqTrace r.2 es
      (r.1 :: rest.1, rest.2)

/-- Run a sequence of `AudioApi_AddSampleBank` calls (allocation
succeeding), collecting the returned ids. -/
def addSampleBankTrace (s : SampleBankState) :
    List AudioTableEntry → List (Option Nat) × SampleBankState
  | [] => ([], s)
  | e :: es =>
      let r := AudioApi_AddSampleBank s e true
      let rest := addSampleBankTrace r.2 es
      (r.1 :: rest.1, rest.2)

/-! ## Helper lemmas -/

theorem RecompQueue_Push_true {α : Type} (q : RecompQueue α)
    (op a b : Nat) (d : α) :
    (RecompQueue_Push q op a b d true).1 = true ∧
    (RecompQueue_Push q op a b d true).2.entries =
      q.entries ++ [⟨op, a, b, d⟩] := by
  unfold RecompQueue_Push RecompQueue_Grow
  split <;> simp

theorem pushIfNotQueued_dup {α : Type} [DecidableEq α] (q : RecompQueue α)
    (op a b : Nat) (d : α) (ok : Bool)
    (h : RecompQueue_IsCmdNotQueued q op a b = false) :
    RecompQueue_PushIfNotQueued q op a b d ok = (false, q) := by
  unfold RecompQueue_PushIfNotQueued
  rw [h]
  simp

/-! ## C3: pushIfAbsent dedup, FIFO drain, length reset -/

/-- C3: pushing `(op, a, b, payloadA)` into a queue not yet holding the
triple succeeds; a second `pushIfAbsent` with the same triple is discarded
(first-registered wins) and leaves the queue unchanged; exactly one entry
with the triple is queued and it holds the first payload; drain hands the
entries to the callback in FIFO order (each once) and resets the length
to zero while retaining the capacity. -/
theorem claim_C3 {α : Type} [DecidableEq α] (q : RecompQueue α)
    (op a b : Nat) (pA pB : α) (ok2 : Bool)
    (habsent : RecompQueue_IsCmdNotQueued q op a b = true) :
    (RecompQueue_PushIfNotQueued q op a b pA true).1 = true ∧
    (RecompQueue_PushIfNotQueued
      (RecompQueue_PushIfNotQueued q op a b pA true).2 op a b pB ok2).1
        = false ∧
    (RecompQueue_PushIfNotQueued
      (RecompQueue_PushIfNotQueued q op a b pA true).2 op a b pB ok2).2
        = (RecompQueue_PushIfNotQueued q op a b pA true).2 ∧
    ((RecompQueue_PushIfNotQueued
      (RecompQueue_PushIfNotQueued q op a b pA true).2 op a b pB ok2).2.entries.filter
        fun c => c.op == op && c.arg0 == a && c.arg1 == b)
      = [⟨op, a, b, pA⟩] ∧
    (RecompQueue_Drain (RecompQueue_PushIfNotQueued
      (RecompQueue_PushIfNotQueued q op a b pA true).2 op a b pB ok2).2).1
      = (RecompQueue_PushIfNotQueued
          (RecompQueue_PushIfNotQueued q op a b pA true).2 op a b pB ok2).2.entries ∧
    (RecompQueue_Drain (RecompQueue_PushIfNotQueued
      (RecompQueue_PushIfNotQueued q op a b pA true).2 op a b pB ok2).2).2.entries = [] ∧
    (RecompQueue_Drain (RecompQueue_PushIfNotQueued
      (RecompQueue_PushIfNotQueued q op a b pA true).2 op a b pB ok2).2).2.capacity
      = (RecompQueue_PushIfNotQueued
          (RecompQueue_PushIfNotQueued q op a b pA true).2 op a b pB ok2).2.capacity := by
  have hpush := RecompQueue_Push_true q op a b pA
  have hfirst : RecompQueue_PushIfNotQueued q op a b pA true
      = RecompQueue_Push q op a b pA true := by
    unfold RecompQueue_PushIfNotQueued
    simp [habsent]
  have hentries : (RecompQueue_PushIfNotQueued q op a b pA true).2.entries
      = q.entries ++ [⟨op, a, b, pA⟩] := by
    rw [hfirst]; exact hpush.2
  have hnq : RecompQueue_IsCmdNotQueued
      (RecompQueue_PushIfNotQueued q op a b pA true).2 op a b = false := by
    unfold RecompQueue_IsCmdNotQueued
    rw [hentries]
    simp
  have hsecond := pushIfNotQueued_dup
    (RecompQueue_PushIfNotQueued q op a b pA true).2 op a b pB ok2 hnq
  have hfilter0 : (q.entries.filter
      fun c => c.op == op && c.arg0 == a && c.arg1 == b) = [] := by
    unfold RecompQueue_IsCmdNotQueued at habsent
    simp only [Bool.not_eq_true', List.any_eq_false] at habsent
    exact List.filter_eq_nil_iff.mpr habsent
  refine ⟨?_, ?_, ?_, ?_, ?_, ?_, ?_⟩
  · rw [hfirst]; exact hpush.1
  · rw [hsecond]
  · rw [hsecond]
  · rw [hsecond]
    simp [hentries, List.filter_append, hfilter0]
  · rfl
  · rfl
  · rfl

/-- C3 witness: on the freshly created queue, pushing `(0,1,2,77)` then
`(0,1,2,88)` leaves exactly the first command queued. -/
theorem claim_C3_witness :
    RecompQueue_IsCmdNotQueued (RecompQueue_Create Nat) 0 1 2 = true ∧
    ((RecompQueue_PushIfNotQueued
      (RecompQueue_PushIfNotQueued (RecompQueue_Create Nat) 0 1 2 77 true).2
        0 1 2 88 true).2.entries.filter
        fun c => c.op == 0 && c.arg0 == 1 && c.arg1 == 2)
      = [⟨0, 1, 2, 77⟩] :=
  ⟨by decide,
    (claim_C3 (RecompQueue_Create Nat) 0 1 2 77 88 true (by decide)).2.2.2.1⟩

/-! ## C10: untracked-pointer refcounting and first-free release -/

theorem lookup_append_single_none {β : Type} (l : List (Nat × β)) (k : Nat)
    (v : β) (h : l.lookup k = none) : (l ++ [(k, v)]).lookup k = some v := by
  induction l with
  | nil => simp [List.lookup]
  | cons x t ih =>
      rw [List.cons_append, List.lookup] at *
      by_cases hx : k == x.1
      · simp [hx] at h
      · simp only [hx] at h ⊢
        exact ih h

theorem assocSet_lookup_self {β : Type} (l : List (Nat × β)) (k : Nat) (v : β) :
    (assocSet l k v).lookup k = some v := by
  induction l with
  | nil => simp [assocSet, List.lookup]
  | cons x t ih =>
      rw [assocSet]
      by_cases hx : x.1 = k
      · simp [hx, List.lookup]
      · rw [if_neg hx, List.lookup]
        have : (k == x.1) = false := by
          simp [Ne.symm hx]
        simp only [this]
        exact ih

theorem refcounter_dec_untracked (store : List (Nat × Nat)) (k : Nat)
    (h : store.lookup k = none) : refcounter_dec store k = (0, store) := by
  unfold refcounter_dec
  rw [h]

theorem refcounter_inc_untracked (store : List (Nat × Nat)) (k : Nat)
    (h : store.lookup k = none) :
    (refcounter_inc store k).1 = 1 ∧
    (refcounter_inc store k).2.lookup k = some 1 := by
  unfold refcounter_inc
  have h1 : (store.lookup k).isSome = false := by simp [h]
  simp only [h1, if_false, Bool.false_eq_true]
  rw [lookup_append_single_none store k 0 h]
  refine ⟨rfl, ?_⟩
  simpa using assocSet_lookup_self (store ++ [(k, 0)]) k 1

theorem copySampleAlloc_zero_free (st : DedupState) (src : Sample)
    (hrc : st.refcounter.lookup st.heap.nextPtr = none) :
    (copySampleAlloc st src 0 (fun _ => true)).1 = some st.heap.nextPtr ∧
    (copySampleAlloc st src 0 (fun _ => true)).2.refcounter = st.refcounter ∧
    (AudioApi_FreeSample (copySampleAlloc st src 0 (fun _ => true)).2
      st.heap.nextPtr).heap.live = st.heap.live ∧
    (AudioApi_FreeSample (copySampleAlloc st src 0 (fun _ => true)).2
      st.heap.nextPtr).refcounter = st.refcounter := by
  have hdec := refcounter_dec_untracked st.refcounter st.heap.nextPtr hrc
  rcases hsl : src.loop with _ | lpair <;> rcases hsb : src.book with _ | bpair <;>
    simp [copySampleAlloc, copySampleBook, copySampleFinish, halloc, hsl, hsb,
      AudioApi_FreeSample, freeSampleRaw, hfreeOpt, hdec, hfree, List.lookup,
      List.erase_cons, assocErase]

theorem copySample_nodedup (st : DedupState) (src : Sample)
    (oracle : Nat → Bool)
    (hcodec : ¬(src.codec = CODEC_ADPCM ∨ src.codec = CODEC_SMALL_ADPCM) ∨
      (AudioApi_HashSample src = 0 ∧ st.sampleHashmap.lookup 0 = none)) :
    AudioApi_CopySample st src oracle = copySampleAlloc st src 0 oracle := by
  unfold AudioApi_CopySample
  rcases hcodec with h | ⟨h0, hm⟩
  · rw [if_neg h]
  · by_cases hc : src.codec = CODEC_ADPCM ∨ src.codec = CODEC_SMALL_ADPCM
    · rw [if_pos hc]
      simp only [h0, hm]
    · rw [if_neg hc]

/-- C10: `refcounter_dec` on an untracked pointer returns 0 and leaves the
store untouched (no entry created or modified); `refcounter_inc` on an
untracked pointer creates its entry with count 1; consequently a sample
copy that was never registered for dedup — non-ADPCM codec, or an ADPCM
sample whose computed hash is 0 — is untracked (the copy leaves the
refcounter unchanged) and its very first `AudioApi_FreeSample` releases
the loop, codebook and backing allocations, restoring the pre-copy live
set. -/
theorem claim_C10 (store : List (Nat × Nat)) (k : Nat) (st : DedupState)
    (src : Sample)
    (hk : store.lookup k = none)
    (hcodec : ¬(src.codec = CODEC_ADPCM ∨ src.codec = CODEC_SMALL_ADPCM) ∨
      (AudioApi_HashSample src = 0 ∧ st.sampleHashmap.lookup 0 = none))
    (hrc : st.refcounter.lookup st.heap.nextPtr = none) :
    refcounter_dec store k = (0, store) ∧
    (refcounter_inc store k).1 = 1 ∧
    (refcounter_inc store k).2.lookup k = some 1 ∧
    (AudioApi_CopySample st src (fun _ => true)).1 = some st.heap.nextPtr ∧
    (AudioApi_CopySample st src (fun _ => true)).2.refcounter = st.refcounter ∧
    (AudioApi_FreeSample (AudioApi_CopySample st src (fun _ => true)).2
      st.heap.nextPtr).heap.live = st.heap.live ∧
    (AudioApi_FreeSample (AudioApi_CopySample st src (fun _ => true)).2
      st.heap.nextPtr).refcounter = st.refcounter := by
  have hinc := refcounter_inc_untracked store k hk
  have heq := copySample_nodedup st src (fun _ => true) hcodec
  have hfree := copySampleAlloc_zero_free st src hrc
  rw [heq]
  exact ⟨refcounter_dec_untracked store k hk, hinc.1, hinc.2,
    hfree.1, hfree.2.1, hfree.2.2.1, hfree.2.2.2⟩

/-- C10 witness: a concrete non-ADPCM (codec 5) sample with a loop; one
free of the untracked copy restores the original single-element live set. -/
theorem claim_C10_witness :
    ([(7, 2)] : List (Nat × Nat)).lookup 5 = none ∧
    (AudioApi_FreeSample
      (AudioApi_CopySample
        ⟨⟨100, [42]⟩, [], [], []⟩
        ⟨5, [1, 2], some (900, [3]), none⟩ (fun _ => true)).2
      100).heap.live = [42] :=
  ⟨by decide,
    (claim_C10 [(7, 2)] 5 ⟨⟨100, [42]⟩, [], [], []⟩
      ⟨5, [1, 2], some (900, [3]), none⟩ (by decide) (Or.inl (by decide))
      (by decide)).2.2.2.2.2.1⟩

/-! ## C4: ADPCM payload dedup with refcounting -/

theorem copySampleAlloc_nz (st : DedupState) (src : Sample) (H : Nat)
    (hH : H ≠ 0) :
    ∃ (hs : HSample) (h' : Heap),
      copySampleAlloc st src H (fun _ => true)
        = (some st.heap.nextPtr,
           ⟨h', (st.heap.nextPtr, hs) :: st.store,
            assocSet st.sampleHashmap H st.heap.nextPtr,
            (refcounter_inc st.refcounter st.heap.nextPtr).2⟩) ∧
      (hfree (hfreeOpt (hfreeOpt h' hs.loopPtr) hs.bookPtr)
        st.heap.nextPtr).live = st.heap.live ∧
      st.heap.nextPtr < h'.nextPtr := by
  rcases hsl : src.loop with _ | lpair <;> rcases hsb : src.book with _ | bpair
  · refine ⟨⟨none, none⟩, ⟨st.heap.nextPtr + 1, st.heap.nextPtr :: st.heap.live⟩,
      ?_, ?_, ?_⟩ <;>
      simp [copySampleAlloc, copySampleBook, copySampleFinish, halloc, hsl, hsb,
        hH, hfree, hfreeOpt, List.erase_cons]
  · refine ⟨⟨none, some (st.heap.nextPtr + 1)⟩,
      ⟨st.heap.nextPtr + 2,
        (st.heap.nextPtr + 1) :: st.heap.nextPtr :: st.heap.live⟩, ?_, ?_, ?_⟩ <;>
      simp [copySampleAlloc, copySampleBook, copySampleFinish, halloc, hsl, hsb,
        hH, hfree, hfreeOpt, List.erase_cons]
  · refine ⟨⟨some (st.heap.nextPtr + 1), none⟩,
      ⟨st.heap.nextPtr + 2,
        (st.heap.nextPtr + 1) :: st.heap.nextPtr :: st.heap.live⟩, ?_, ?_, ?_⟩ <;>
      simp [copySampleAlloc, copySampleBook, copySampleFinish, halloc, hsl, hsb,
        hH, hfree, hfreeOpt, List.erase_cons]
  · refine ⟨⟨some (st.heap.nextPtr + 1), some (st.heap.nextPtr + 2)⟩,
      ⟨st.heap.nextPtr + 3,
        (st.heap.nextPtr + 2) :: (st.heap.nextPtr + 1) :: st.heap.nextPtr ::
          st.heap.live⟩, ?_, ?_, ?_⟩ <;>
      simp [copySampleAlloc, copySampleBook, copySampleFinish, halloc, hsl, hsb,
        hH, hfree, hfreeOpt, List.erase_cons]

theorem refcounter_inc_tracked (rc : List (Nat × Nat)) (p v : Nat)
    (h : rc.lookup p = some v) :
    refcounter_inc rc p = ((v + 1) % 65536, assocSet rc p ((v + 1) % 65536)) := by
  unfold refcounter_inc
  simp [h]

theorem refcounter_dec_tracked (rc : List (Nat × Nat)) (p v : Nat)
    (h : rc.lookup p = some v) :
    refcounter_dec rc p =
      (if (v + 65535) % 65536 = 0 then (0, assocErase rc p)
       else ((v + 65535) % 65536, assocSet rc p ((v + 65535) % 65536))) := by
  unfold refcounter_dec
  rw [h]

theorem copySampleAlloc_zero_fst (st : DedupState) (src : Sample) :
    (copySampleAlloc st src 0 (fun _ => true)).1 = some st.heap.nextPtr ∧
    (copySampleAlloc st src 0 (fun _ => true)).2.sampleHashmap
      = st.sampleHashmap ∧
    st.heap.nextPtr < (copySampleAlloc st src 0 (fun _ => true)).2.heap.nextPtr := by
  rcases hsl : src.loop with _ | lpair <;> rcases hsb : src.book with _ | bpair <;>
    simp [copySampleAlloc, copySampleBook, copySampleFinish, halloc, hsl, hsb] <;> omega

/-- C4: inserting an ADPCM (compressible) sample whose hash is fresh
registers it with refcount 1; a second `AudioApi_CopySample` whose source
hashes identically — in particular any byte-identical source — returns the
SAME handle purely on the hash match (no byte comparison or allocation:
heap, store and hashmap are untouched) with refcount 2; one
`AudioApi_FreeSample` drops the refcount to 1 leaving the handle's memory
and struct contents intact; the second free releases the loop, codebook
and sample allocations, restoring the pre-insertion live set.
Non-compressible codecs are always deep-copied to fresh, distinct handles
and never enter the dedup hashmap. -/
theorem claim_C4 (st : DedupState) (src src2 : Sample)
    (hc1 : src.codec = CODEC_ADPCM ∨ src.codec = CODEC_SMALL_ADPCM)
    (hc2 : src2.codec = CODEC_ADPCM ∨ src2.codec = CODEC_SMALL_ADPCM)
    (hh : AudioApi_HashSample src2 = AudioApi_HashSample src)
    (hnz : AudioApi_HashSample src ≠ 0)
    (habsent : st.sampleHashmap.lookup (AudioApi_HashSample src) = none)
    (hrc : st.refcounter.lookup st.heap.nextPtr = none) :
    (∃ st1 st2 st3 st4 : DedupState,
      AudioApi_CopySample st src (fun _ => true)
        = (some st.heap.nextPtr, st1) ∧
      refcounter_get st1.refcounter st.heap.nextPtr = 1 ∧
      AudioApi_CopySample st1 src2 (fun _ => true)
        = (some st.heap.nextPtr, st2) ∧
      refcounter_get st2.refcounter st.heap.nextPtr = 2 ∧
      st2.heap = st1.heap ∧ st2.store = st1.store ∧
      st2.sampleHashmap = st1.sampleHashmap ∧
      AudioApi_FreeSample st2 st.heap.nextPtr = st3 ∧
      refcounter_get st3.refcounter st.heap.nextPtr = 1 ∧
      st3.heap = st2.heap ∧ st3.store = st2.store ∧
      AudioApi_FreeSample st3 st.heap.nextPtr = st4 ∧
      st4.heap.live = st.heap.live) ∧
    (∀ (stN : DedupState) (srcN : Sample),
      ¬(srcN.codec = CODEC_ADPCM ∨ srcN.codec = CODEC_SMALL_ADPCM) →
      (AudioApi_CopySample stN srcN (fun _ => true)).1
        = some stN.heap.nextPtr ∧
      (AudioApi_CopySample stN srcN (fun _ => true)).2.sampleHashmap
        = stN.sampleHashmap ∧
      (AudioApi_CopySample (AudioApi_CopySample stN srcN (fun _ => true)).2
        srcN (fun _ => true)).1
        = some (AudioApi_CopySample stN srcN (fun _ => true)).2.heap.nextPtr ∧
      stN.heap.nextPtr
        < (AudioApi_CopySample stN srcN (fun _ => true)).2.heap.nextPtr) := by
  constructor
  · obtain ⟨hs, h', heq, herase, hlt⟩ :=
      copySampleAlloc_nz st src (AudioApi_HashSample src) hnz
    have hcopy1 : AudioApi_CopySample st src (fun _ => true)
        = copySampleAlloc st src (AudioApi_HashSample src) (fun _ => true) := by
      unfold AudioApi_CopySample
      rw [if_pos hc1]
      simp only [habsent]
    refine ⟨⟨h', (st.heap.nextPtr, hs) :: st.store,
      assocSet st.sampleHashmap (AudioApi_HashSample src) st.heap.nextPtr,
      (refcounter_inc st.refcounter st.heap.nextPtr).2⟩, ?_⟩
    have hrc1 : ((refcounter_inc st.refcounter st.heap.nextPtr).2).lookup
        st.heap.nextPtr = some 1 :=
      (refcounter_inc_untracked st.refcounter st.heap.nextPtr hrc).2
    have hinc2 : refcounter_inc
        (refcounter_inc st.refcounter st.heap.nextPtr).2 st.heap.nextPtr
        = (2, assocSet (refcounter_inc st.refcounter st.heap.nextPtr).2
            st.heap.nextPtr 2) := by
      rw [refcounter_inc_tracked _ _ 1 hrc1]
    refine ⟨⟨h', (st.heap.nextPtr, hs) :: st.store,
      assocSet st.sampleHashmap (AudioApi_HashSample src) st.heap.nextPtr,
      assocSet (refcounter_inc st.refcounter st.heap.nextPtr).2
        st.heap.nextPtr 2⟩, ?_⟩
    have hl1 : (assocSet st.sampleHashmap (AudioApi_HashSample src)
        st.heap.nextPtr).lookup (AudioApi_HashSample src)
        = some st.heap.nextPtr := assocSet_lookup_self _ _ _
    have hl2 : (assocSet (refcounter_inc st.refcounter st.heap.nextPtr).2
        st.heap.nextPtr 2).lookup st.heap.nextPtr = some 2 :=
      assocSet_lookup_self _ _ _
    have hl3 : (assocSet (assocSet
        (refcounter_inc st.refcounter st.heap.nextPtr).2 st.heap.nextPtr 2)
        st.heap.nextPtr 1).lookup st.heap.nextPtr = some 1 :=
      assocSet_lookup_self _ _ _
    have hlst : (((st.heap.nextPtr, hs) :: st.store).lookup st.heap.nextPtr)
        = some hs := by
      simp [List.lookup]
    refine ⟨⟨h', (st.heap.nextPtr, hs) :: st.store,
      assocSet st.sampleHashmap (AudioApi_HashSample src) st.heap.nextPtr,
      assocSet (assocSet (refcounter_inc st.refcounter st.heap.nextPtr).2
        st.heap.nextPtr 2) st.heap.nextPtr 1⟩,
      ⟨hfree (hfreeOpt (hfreeOpt h' hs.loopPtr) hs.bookPtr) st.heap.nextPtr,
        assocErase ((st.heap.nextPtr, hs) :: st.store) st.heap.nextPtr,
        assocSet st.sampleHashmap (AudioApi_HashSample src) st.heap.nextPtr,
        assocErase (assocSet (assocSet
          (refcounter_inc st.refcounter st.heap.nextPtr).2 st.heap.nextPtr 2)
          st.heap.nextPtr 1) st.heap.nextPtr⟩,
      ?_, ?_, ?_, ?_, rfl, rfl, rfl, ?_, ?_, rfl, rfl, ?_, ?_⟩
    · rw [hcopy1, heq]
    · unfold refcounter_get
      rw [hrc1]
      rfl
    · unfold AudioApi_CopySample
      rw [if_pos hc2]
      simp only [hh, hl1, hinc2]
    · unfold refcounter_get
      rw [hl2]
      rfl
    · unfold AudioApi_FreeSample
      rw [hlst]
      unfold freeSampleRaw
      rw [refcounter_dec_tracked _ _ 2 hl2]
      norm_num
    · unfold refcounter_get
      rw [hl3]
      rfl
    · unfold AudioApi_FreeSample
      rw [hlst]
      unfold freeSampleRaw
      rw [refcounter_dec_tracked _ _ 1 hl3]
      norm_num
    · exact herase
  · intro stN srcN hcN
    have h0 := copySampleAlloc_zero_fst stN srcN
    have hN : AudioApi_CopySample stN srcN (fun _ => true)
        = copySampleAlloc stN srcN 0 (fun _ => true) := by
      unfold AudioApi_CopySample
      rw [if_neg hcN]
    have h1 := copySampleAlloc_zero_fst
      (copySampleAlloc stN srcN 0 (fun _ => true)).2 srcN
    have hN2 : AudioApi_CopySample
        (copySampleAlloc stN srcN 0 (fun _ => true)).2 srcN (fun _ => true)
        = copySampleAlloc (copySampleAlloc stN srcN 0 (fun _ => true)).2
            srcN 0 (fun _ => true) := by
      unfold AudioApi_CopySample
      rw [if_neg hcN]
    rw [hN, hN2]
    exact ⟨h0.1, h0.2.1, h1.1, h0.2.2⟩

/-- C4 witness: a concrete ADPCM sample inserted twice (the second source
byte-identical but held at different source addresses) shares one handle
through refcounts 2 -> 1 -> released. -/
theorem claim_C4_witness :
    AudioApi_HashSample ⟨0, [1, 2], some (900, [3]), some (901, [4])⟩ ≠ 0 ∧
    (∃ st1 st2 st3 st4 : DedupState,
      AudioApi_CopySample ⟨⟨100, [42]⟩, [], [], []⟩
        ⟨0, [1, 2], some (900, [3]), some (901, [4])⟩ (fun _ => true)
        = (some 100, st1) ∧
      refcounter_get st1.refcounter 100 = 1 ∧
      AudioApi_CopySample st1
        ⟨0, [1, 2], some (902, [3]), some (903, [4])⟩ (fun _ => true)
        = (some 100, st2) ∧
      refcounter_get st2.refcounter 100 = 2 ∧
      st2.heap = st1.heap ∧ st2.store = st1.store ∧
      st2.sampleHashmap = st1.sampleHashmap ∧
      AudioApi_FreeSample st2 100 = st3 ∧
      refcounter_get st3.refcounter 100 = 1 ∧
      st3.heap = st2.heap ∧ st3.store = st2.store ∧
      AudioApi_FreeSample st3 100 = st4 ∧
      st4.heap.live = [42]) :=
  ⟨by decide,
    (claim_C4 ⟨⟨100, [42]⟩, [], [], []⟩
      ⟨0, [1, 2], some (900, [3]), some (901, [4])⟩
      ⟨0, [1, 2], some (902, [3]), some (903, [4])⟩
      (Or.inl rfl) (Or.inl rfl) (by decide) (by decide) rfl rfl).1⟩


/-! ## C9: cache-presence query -/

/-- C9: the cache query reports a resource cached — returning its memory
address, the RAM pointer held in the entry's `romAddr` — exactly when the
key is in the loaded set, AND (when the permanent tier was requested) the
key is in the permanent set, AND the entry's data location is KSEG0
(memory-resident); otherwise it reports absent (NULL). -/
theorem claim_C9 (getReal : Nat → Nat → Nat) (tables : Nat → Nat → Nat)
    (st : LoadStatusState) (tableType cache id : Nat) :
    AudioHeap_SearchCaches getReal tables st tableType cache id
      = if st.loadedCache.contains (cacheKey tableType (getReal tableType id))
          ∧ (cache = CACHE_PERMANENT →
            st.permanentCache.contains
              (cacheKey tableType (getReal tableType id)))
          ∧ isKseg0 (tables tableType (getReal tableType id))
        then some (tables tableType (getReal tableType id))
        else none := by
  unfold AudioHeap_SearchCaches
  split_ifs <;> simp_all <;> tauto


/-! ## C6: persistent-cache bound and push conditions -/

theorem setStatus_persistentCache (g : Nat → Nat → Nat) (st : LoadStatusState)
    (t id v : Nat) :
    (AudioApi_SetTableEntryLoadStatus g st t id v).persistentCache
      = st.persistentCache := by
  unfold AudioApi_SetTableEntryLoadStatus
  split_ifs <;> rfl

theorem resetLoopStep_persistentCache (g : Nat → Nat → Nat) (t : Nat)
    (st : LoadStatusState) (i : Nat) :
    (resetLoopStep g t st i).persistentCache = st.persistentCache := by
  unfold resetLoopStep
  split_ifs with h
  · exact setStatus_persistentCache g st t i LOAD_STATUS_NOT_LOADED
  · rfl

theorem foldl_resetLoop_persistentCache (g : Nat → Nat → Nat) (t : Nat)
    (l : List Nat) : ∀ st : LoadStatusState,
    ((l.foldl (resetLoopStep g t) st).persistentCache = st.persistentCache) := by
  induction l with
  | nil => intro st; rfl
  | cons x xs ih =>
      intro st
      rw [List.foldl_cons, ih, resetLoopStep_persistentCache]

theorem removeLastMatching_length {α : Type} (p : α → Bool) :
    ∀ (l : List α) (e : α) (rest : List α),
    removeLastMatching p l = some (e, rest) → rest.length + 1 = l.length := by
  intro l
  induction l with
  | nil => intro e rest h; simp [removeLastMatching] at h
  | cons x xs ih =>
      intro e rest h
      rw [removeLastMatching] at h
      rcases hx : removeLastMatching p xs with _ | pr
      · rw [hx] at h
        split_ifs at h
        · cases h
          simp
      · rw [hx] at h
        cases h
        simp [← ih pr.1 pr.2 hx]

/-- C6: the persistent stack is bounded by 16 and a push appends only when
capacity remains and the (kind, index) key is absent: a push onto a
≤16-entry stack keeps it ≤16; a push onto a full (16-entry) stack leaves
it unchanged (the 17th key is silently dropped); a push whose key is
already present leaves the stack unchanged; under persistent policy with
room and a fresh key the entry is appended; non-persistent policies never
touch the stack; pop never lengthens the stack; reset empties it. -/
theorem claim_C6 (getReal : Nat → Nat → Nat) (st : LoadStatusState)
    (tableType cachePolicy id popType : Nat) :
    (st.persistentCache.length ≤ 16 →
      (AudioApi_PushFakeCache getReal st tableType cachePolicy
        id).persistentCache.length ≤ 16) ∧
    (st.persistentCache.length = 16 →
      (AudioApi_PushFakeCache getReal st tableType cachePolicy
        id).persistentCache = st.persistentCache) ∧
    ((st.persistentCache.any fun e =>
        e.tableType = tableType ∧ e.id = getReal tableType id) = true →
      (AudioApi_PushFakeCache getReal st tableType cachePolicy
        id).persistentCache = st.persistentCache) ∧
    (cachePolicy = CACHE_LOAD_PERSISTENT →
      st.persistentCache.length < 16 →
      (st.persistentCache.any fun e =>
        e.tableType = tableType ∧ e.id = getReal tableType id) = false →
      (AudioApi_PushFakeCache getReal st tableType cachePolicy
        id).persistentCache
        = st.persistentCache ++ [⟨tableType, getReal tableType id⟩]) ∧
    (cachePolicy ≠ CACHE_LOAD_PERSISTENT →
      (AudioApi_PushFakeCache getReal st tableType cachePolicy
        id).persistentCache = st.persistentCache) ∧
    ((AudioHeap_PopPersistentCache getReal st
        popType).2.persistentCache.length ≤ st.persistentCache.length) ∧
    ((AudioHeap_ResetLoadStatus getReal st).persistentCache = []) := by
  have hpush : ∀ P : List PersistentCacheEntry → Prop,
      P st.persistentCache →
      (st.persistentCache.length < 16 →
        (st.persistentCache.any fun e =>
          e.tableType = tableType ∧ e.id = getReal tableType id) = false →
        cachePolicy = CACHE_LOAD_PERSISTENT →
        P (st.persistentCache ++ [⟨tableType, getReal tableType id⟩])) →
      P (AudioApi_PushFakeCache getReal st tableType cachePolicy
          id).persistentCache := by
    intro P hbase hstep
    unfold AudioApi_PushFakeCache
    dsimp only
    split_ifs with h1 h2 h3 h4 h5
    · exact hbase
    · exact hstep h2.2 (by simpa using h3) h2.1
    · exact hbase
    · exact hbase
    · exact hstep h4.2 (by simpa using h5) h4.1
    · exact hbase
  refine ⟨?_, ?_, ?_, ?_, ?_, ?_, ?_⟩
  · intro hle
    refine hpush (fun l => l.length ≤ 16) hle ?_
    intro hlt _ _
    simp
    omega
  · intro hfull
    refine hpush (fun l => l = st.persistentCache) rfl ?_
    intro hlt _ _
    omega
  · intro hdup
    refine hpush (fun l => l = st.persistentCache) rfl ?_
    intro _ hnd _
    rw [hdup] at hnd
    cases hnd
  · intro hpol hroom hfresh
    unfold AudioApi_PushFakeCache
    dsimp only
    split_ifs with h1 h2 h3 h4 h5
    · rw [hfresh] at h3
      cases h3
    · rfl
    · exact absurd ⟨hpol, hroom⟩ h2
    · rw [hfresh] at h5
      cases h5
    · rfl
    · exact absurd ⟨hpol, hroom⟩ h4
  · intro hpol
    refine hpush (fun l => l = st.persistentCache) rfl ?_
    intro _ _ hp
    exact absurd hp hpol
  · unfold AudioHeap_PopPersistentCache
    rcases hrm : removeLastMatching (fun e => e.tableType == popType)
      st.persistentCache with _ | ⟨e, rest⟩
    · rw [hrm]
    · rw [hrm]
      have := removeLastMatching_length _ _ _ _ hrm
      dsimp only
      omega
  · unfold AudioHeap_ResetLoadStatus
    rw [foldl_resetLoop_persistentCache, foldl_resetLoop_persistentCache]


/-- C6 witness: a stack already holding 16 distinct keys has length 16 and
a 17th persistent-policy push leaves it unchanged. -/
theorem claim_C6_witness :
    (({ persistentCache := (List.range 16).map fun i => ⟨0, i⟩,
        permanentCache := [], loadedCache := [],
        seqLoadStatus := fun _ => 0, fontLoadStatus := fun _ => 0,
        seqNumEntries := 0, fontNumEntries := 0 } :
          LoadStatusState)).persistentCache.length = 16 ∧
    (AudioApi_PushFakeCache (fun _ i => i)
      { persistentCache := (List.range 16).map fun i => ⟨0, i⟩,
        permanentCache := [], loadedCache := [],
        seqLoadStatus := fun _ => 0, fontLoadStatus := fun _ => 0,
        seqNumEntries := 0, fontNumEntries := 0 }
      0 CACHE_LOAD_PERSISTENT 20).persistentCache
      = (List.range 16).map fun i => ⟨0, i⟩ :=
  ⟨by decide,
    (claim_C6 (fun _ i => i)
      { persistentCache := (List.range 16).map fun i => ⟨0, i⟩,
        permanentCache := [], loadedCache := [],
        seqLoadStatus := fun _ => 0, fontLoadStatus := fun _ => 0,
        seqNumEntries := 0, fontNumEntries := 0 }
      0 CACHE_LOAD_PERSISTENT 20 0).2.1 (by decide)⟩

/-! ## C7: persistent-cache pop -/

theorem removeLastMatching_none {α : Type} (p : α → Bool) :
    ∀ l : List α, (∀ x ∈ l, p x = false) → removeLastMatching p l = none := by
  intro l
  induction l with
  | nil => intro _; rfl
  | cons x xs ih =>
      intro h
      rw [removeLastMatching, ih fun y hy => h y (List.mem_cons_of_mem x hy)]
      simp [h x (List.mem_cons_self x xs)]

theorem removeLastMatching_spec {α : Type} (p : α → Bool) (e : α)
    (he : p e = true) :
    ∀ (l₁ l₂ : List α), (∀ x ∈ l₂, p x = false) →
    removeLastMatching p (l₁ ++ e :: l₂) = some (e, l₁ ++ l₂) := by
  intro l₁
  induction l₁ with
  | nil =>
      intro l₂ h₂
      rw [List.nil_append, removeLastMatching, removeLastMatching_none p l₂ h₂]
      simp [he]
  | cons x xs ih =>
      intro l₂ h₂
      rw [List.cons_append, removeLastMatching, ih l₂ h₂]
      simp


/-- C7: pop removes the most-recently-pushed persistent entry whose kind
matches, scanning from the top and leaving every other entry in place
(the stack decomposes as `before ++ after` with the last matching entry
gone); the popped entry's load status is reset to NotLoaded (shown for
each of the two kinds with a status array, for non-sentinel realIds) and
the font kind triggers the `AudioHeap_DiscardFont` eviction side effect;
with no matching entry the pop is a no-op returning the state unchanged. -/
theorem claim_C7 (getReal : Nat → Nat → Nat) (st : LoadStatusState)
    (t : Nat) :
    ((∀ x ∈ st.persistentCache, x.tableType ≠ t) →
      AudioHeap_PopPersistentCache getReal st t = (none, st)) ∧
    (∀ (l₁ l₂ : List PersistentCacheEntry) (e : PersistentCacheEntry),
      st.persistentCache = l₁ ++ e :: l₂ → e.tableType = t →
      (∀ x ∈ l₂, x.tableType ≠ t) →
      (AudioHeap_PopPersistentCache getReal st t).2.persistentCache
        = l₁ ++ l₂ ∧
      (AudioHeap_PopPersistentCache getReal st t).1
        = (if t = FONT_TABLE then some e.id else none) ∧
      (AudioHeap_PopPersistentCache getReal st t).2
        = { AudioApi_SetTableEntryLoadStatus getReal st t e.id
              LOAD_STATUS_NOT_LOADED with persistentCache := l₁ ++ l₂ } ∧
      (t = FONT_TABLE → e.id % 256 ≠ 0xFE → e.id % 256 ≠ 0xFF →
        getReal t e.id = e.id →
        (AudioHeap_PopPersistentCache getReal st t).2.fontLoadStatus e.id
          = LOAD_STATUS_NOT_LOADED) ∧
      (t = SEQUENCE_TABLE → e.id % 256 ≠ 0xFE → e.id % 256 ≠ 0xFF →
        getReal t e.id = e.id →
        (AudioHeap_PopPersistentCache getReal st t).2.seqLoadStatus e.id
          = LOAD_STATUS_NOT_LOADED)) := by
  constructor
  · intro hnone
    have hrm : removeLastMatching (fun e => e.tableType == t)
        st.persistentCache = none := by
      refine removeLastMatching_none _ _ ?_
      intro x hx
      simpa using hnone x hx
    unfold AudioHeap_PopPersistentCache
    rw [hrm]
  · intro l₁ l₂ e hdecomp he h₂
    have hrm : removeLastMatching (fun x => x.tableType == t)
        st.persistentCache = some (e, l₁ ++ l₂) := by
      rw [hdecomp]
      refine removeLastMatching_spec _ e (by simpa using he) l₁ l₂ ?_
      intro x hx
      simpa using h₂ x hx
    have hpop : AudioHeap_PopPersistentCache getReal st t
        = ((if t = FONT_TABLE then some e.id else none),
           { AudioApi_SetTableEntryLoadStatus getReal st t e.id
               LOAD_STATUS_NOT_LOADED with persistentCache := l₁ ++ l₂ }) := by
      unfold AudioHeap_PopPersistentCache
      rw [hrm]
    rw [hpop]
    refine ⟨rfl, rfl, rfl, ?_, ?_⟩
    · intro hf hs1 hs2 hg
      subst hf
      simp only [AudioApi_SetTableEntryLoadStatus, hg, hs1, hs2]
      norm_num [SEQUENCE_TABLE, FONT_TABLE, LOAD_STATUS_NOT_LOADED, tblUpdate]
    · intro hs hs1 hs2 hg
      subst hs
      simp only [AudioApi_SetTableEntryLoadStatus, hg, hs1, hs2]
      norm_num [SEQUENCE_TABLE, LOAD_STATUS_NOT_LOADED, tblUpdate]


/-- C7 witness: popping kind 1 (fonts) from the stack
`[(1,5), (0,3), (1,7)]` removes the top matching entry `(1,7)`, keeps the
others in order, reports font 7 discarded and resets its status. -/
theorem claim_C7_witness :
    (AudioHeap_PopPersistentCache (fun _ i => i)
      { persistentCache := [⟨1, 5⟩, ⟨0, 3⟩, ⟨1, 7⟩], permanentCache := [],
        loadedCache := [], seqLoadStatus := fun _ => 2,
        fontLoadStatus := fun _ => 2, seqNumEntries := 0,
        fontNumEntries := 0 } 1).2.persistentCache = [⟨1, 5⟩, ⟨0, 3⟩] ∧
    (AudioHeap_PopPersistentCache (fun _ i => i)
      { persistentCache := [⟨1, 5⟩, ⟨0, 3⟩, ⟨1, 7⟩], permanentCache := [],
        loadedCache := [], seqLoadStatus := fun _ => 2,
        fontLoadStatus := fun _ => 2, seqNumEntries := 0,
        fontNumEntries := 0 } 1).1 = some 7 ∧
    (AudioHeap_PopPersistentCache (fun _ i => i)
      { persistentCache := [⟨1, 5⟩, ⟨0, 3⟩, ⟨1, 7⟩], permanentCache := [],
        loadedCache := [], seqLoadStatus := fun _ => 2,
        fontLoadStatus := fun _ => 2, seqNumEntries := 0,
        fontNumEntries := 0 } 1).2.fontLoadStatus 7
      = LOAD_STATUS_NOT_LOADED := by
  have h := (claim_C7 (fun _ i => i)
    { persistentCache := [⟨1, 5⟩, ⟨0, 3⟩, ⟨1, 7⟩], permanentCache := [],
      loadedCache := [], seqLoadStatus := fun _ => 2,
      fontLoadStatus := fun _ => 2, seqNumEntries := 0,
      fontNumEntries := 0 } 1).2 [⟨1, 5⟩, ⟨0, 3⟩] [] ⟨1, 7⟩ rfl rfl
    (by simp)
  exact ⟨h.1, by simpa using h.2.1,
    h.2.2.2.1 rfl (by decide) (by decide) rfl⟩

/-! ## C8: reset load status -/


theorem resetLoopStep_font (g : Nat → Nat → Nat) (hReal : ∀ t i, g t i = i)
    (st : LoadStatusState) (i : Nat) :
    resetLoopStep g FONT_TABLE st i
      = if i % 256 ≠ 0xFE ∧ i % 256 ≠ 0xFF ∧
            st.fontLoadStatus i ≠ LOAD_STATUS_PERMANENT
        then { st with fontLoadStatus :=
                tblUpdate st.fontLoadStatus i LOAD_STATUS_NOT_LOADED }
        else st := by
  unfold resetLoopStep AudioApi_GetTableEntryLoadStatus
    AudioApi_SetTableEntryLoadStatus
  rw [hReal]
  by_cases h1 : i % 256 = 0xFF ∨ i % 256 = 0xFE
  · rw [if_pos h1, if_pos h1]
    simp only [ne_eq, not_true_eq_false, if_neg]
    have : ¬(i % 256 ≠ 0xFE ∧ i % 256 ≠ 0xFF ∧
        st.fontLoadStatus i ≠ LOAD_STATUS_PERMANENT) := by
      rcases h1 with h | h <;> simp [h]
    rw [if_neg this]
    simp
  · rw [if_neg h1, if_neg h1]
    push_neg at h1
    norm_num [SEQUENCE_TABLE, FONT_TABLE]
    by_cases h2 : st.fontLoadStatus i = LOAD_STATUS_PERMANENT
    · simp [h2, LOAD_STATUS_PERMANENT]
    · simp [h2, h1.1, h1.2, LOAD_STATUS_PERMANENT]


theorem resetLoopStep_seq (g : Nat → Nat → Nat) (hReal : ∀ t i, g t i = i)
    (st : LoadStatusState) (i : Nat) :
    resetLoopStep g SEQUENCE_TABLE st i
      = if i % 256 ≠ 0xFE ∧ i % 256 ≠ 0xFF ∧
            st.seqLoadStatus i ≠ LOAD_STATUS_PERMANENT
        then { st with seqLoadStatus :=
                tblUpdate st.seqLoadStatus i LOAD_STATUS_NOT_LOADED }
        else st := by
  unfold resetLoopStep AudioApi_GetTableEntryLoadStatus
    AudioApi_SetTableEntryLoadStatus
  rw [hReal]
  by_cases h1 : i % 256 = 0xFF ∨ i % 256 = 0xFE
  · rw [if_pos h1, if_pos h1]
    simp only [ne_eq, not_true_eq_false, if_neg]
    have : ¬(i % 256 ≠ 0xFE ∧ i % 256 ≠ 0xFF ∧
        st.seqLoadStatus i ≠ LOAD_STATUS_PERMANENT) := by
      rcases h1 with h | h <;> simp [h]
    rw [if_neg this]
    simp
  · rw [if_neg h1, if_neg h1]
    push_neg at h1
    norm_num [SEQUENCE_TABLE]
    by_cases h2 : st.seqLoadStatus i = LOAD_STATUS_PERMANENT
    · simp [h2, LOAD_STATUS_PERMANENT]
    · simp [h2, h1.1, h1.2, LOAD_STATUS_PERMANENT]

theorem foldl_reset_font (g : Nat → Nat → Nat) (hReal : ∀ t i, g t i = i)
    (n : Nat) : ∀ st : LoadStatusState,
    (List.range n).foldl (resetLoopStep g FONT_TABLE) st
      = { st with fontLoadStatus := fun i =>
          if i < n ∧ i % 256 ≠ 0xFE ∧ i % 256 ≠ 0xFF ∧
              st.fontLoadStatus i ≠ LOAD_STATUS_PERMANENT
          then LOAD_STATUS_NOT_LOADED else st.fontLoadStatus i } := by
  induction n with
  | zero =>
      intro st
      rw [List.range_zero, List.foldl_nil]
      have : (fun i =>
          if i < 0 ∧ i % 256 ≠ 0xFE ∧ i % 256 ≠ 0xFF ∧
              st.fontLoadStatus i ≠ LOAD_STATUS_PERMANENT
          then LOAD_STATUS_NOT_LOADED else st.fontLoadStatus i)
          = st.fontLoadStatus := by
        funext i
        simp
      rw [this]
  | succ n ih =>
      intro st
      rw [List.range_succ, List.foldl_append, List.foldl_cons, List.foldl_nil,
        ih st, resetLoopStep_font g hReal]
      split_ifs with hc
      · have hc' : n % 256 ≠ 0xFE ∧ n % 256 ≠ 0xFF ∧
            st.fontLoadStatus n ≠ LOAD_STATUS_PERMANENT := by
          simpa using hc
        congr 1
        funext i
        by_cases hi : i = n
        · simp only [hi, tblUpdate, if_pos rfl]
          simp [hc'.1, hc'.2.1, hc'.2.2]
        · simp only [tblUpdate, if_neg hi]
          have hiff : (i < n + 1) ↔ (i < n) := by omega
          simp only [hiff]
      · have hc' : ¬(n % 256 ≠ 0xFE ∧ n % 256 ≠ 0xFF ∧
            st.fontLoadStatus n ≠ LOAD_STATUS_PERMANENT) := by
          simpa using hc
        congr 1
        funext i
        by_cases hi : i = n
        · simp only [hi]
          rw [if_neg (by simp), if_neg fun h => hc' ⟨h.2.1, h.2.2.1, h.2.2.2⟩]
        · have hiff : (i < n + 1) ↔ (i < n) := by omega
          simp only [hiff]


theorem foldl_reset_seq (g : Nat → Nat → Nat) (hReal : ∀ t i, g t i = i)
    (n : Nat) : ∀ st : LoadStatusState,
    (List.range n).foldl (resetLoopStep g SEQUENCE_TABLE) st
      = { st with seqLoadStatus := fun i =>
          if i < n ∧ i % 256 ≠ 0xFE ∧ i % 256 ≠ 0xFF ∧
              st.seqLoadStatus i ≠ LOAD_STATUS_PERMANENT
          then LOAD_STATUS_NOT_LOADED else st.seqLoadStatus i } := by
  induction n with
  | zero =>
      intro st
      rw [List.range_zero, List.foldl_nil]
      have : (fun i =>
          if i < 0 ∧ i % 256 ≠ 0xFE ∧ i % 256 ≠ 0xFF ∧
              st.seqLoadStatus i ≠ LOAD_STATUS_PERMANENT
          then LOAD_STATUS_NOT_LOADED else st.seqLoadStatus i)
          = st.seqLoadStatus := by
        funext i
        simp
      rw [this]
  | succ n ih =>
      intro st
      rw [List.range_succ, List.foldl_append, List.foldl_cons, List.foldl_nil,
        ih st, resetLoopStep_seq g hReal]
      split_ifs with hc
      · have hc' : n % 256 ≠ 0xFE ∧ n % 256 ≠ 0xFF ∧
            st.seqLoadStatus n ≠ LOAD_STATUS_PERMANENT := by
          simpa using hc
        congr 1
        funext i
        by_cases hi : i = n
        · simp only [hi, tblUpdate, if_pos rfl]
          simp [hc'.1, hc'.2.1, hc'.2.2]
        · simp only [tblUpdate, if_neg hi]
          have hiff : (i < n + 1) ↔ (i < n) := by omega
          simp only [hiff]
      · have hc' : ¬(n % 256 ≠ 0xFE ∧ n % 256 ≠ 0xFF ∧
            st.seqLoadStatus n ≠ LOAD_STATUS_PERMANENT) := by
          simpa using hc
        congr 1
        funext i
        by_cases hi : i = n
        · simp only [hi]
          rw [if_neg (by simp), if_neg fun h => hc' ⟨h.2.1, h.2.2.1, h.2.2.2⟩]
        · have hiff : (i < n + 1) ↔ (i < n) := by omega
          simp only [hiff]

/-- C8: the reset operation empties the persistent stack and sets every
(non-sentinel-indexed) font and sequence table entry's load status to
NotLoaded, except entries already at Permanent, which keep their exact
previous value — in particular an entry at Permanent is unchanged and an
entry at Complete becomes NotLoaded. -/
theorem claim_C8 (g : Nat → Nat → Nat) (st : LoadStatusState)
    (hReal : ∀ t i, g t i = i) :
    (AudioHeap_ResetLoadStatus g st).persistentCache = [] ∧
    (∀ i, (AudioHeap_ResetLoadStatus g st).fontLoadStatus i
      = if i < st.fontNumEntries ∧ i % 256 ≠ 0xFE ∧ i % 256 ≠ 0xFF ∧
            st.fontLoadStatus i ≠ LOAD_STATUS_PERMANENT
        then LOAD_STATUS_NOT_LOADED else st.fontLoadStatus i) ∧
    (∀ i, (AudioHeap_ResetLoadStatus g st).seqLoadStatus i
      = if i < st.seqNumEntries ∧ i % 256 ≠ 0xFE ∧ i % 256 ≠ 0xFF ∧
            st.seqLoadStatus i ≠ LOAD_STATUS_PERMANENT
        then LOAD_STATUS_NOT_LOADED else st.seqLoadStatus i) := by
  have hres : AudioHeap_ResetLoadStatus g st
      = { st with
          persistentCache := [],
          fontLoadStatus := fun i =>
            if i < st.fontNumEntries ∧ i % 256 ≠ 0xFE ∧ i % 256 ≠ 0xFF ∧
                st.fontLoadStatus i ≠ LOAD_STATUS_PERMANENT
            then LOAD_STATUS_NOT_LOADED else st.fontLoadStatus i,
          seqLoadStatus := fun i =>
            if i < st.seqNumEntries ∧ i % 256 ≠ 0xFE ∧ i % 256 ≠ 0xFF ∧
                st.seqLoadStatus i ≠ LOAD_STATUS_PERMANENT
            then LOAD_STATUS_NOT_LOADED else st.seqLoadStatus i } := by
    unfold AudioHeap_ResetLoadStatus
    dsimp only
    rw [foldl_reset_font g hReal, foldl_reset_seq g hReal]
  rw [hres]
  exact ⟨rfl, fun i => rfl, fun i => rfl⟩

/-- C8 witness: font entry 0 at Permanent stays Permanent, font entry 1 at
Complete becomes NotLoaded, and the persistent stack empties. -/
theorem claim_C8_witness :
    (AudioHeap_ResetLoadStatus (fun _ i => i)
      { persistentCache := [⟨1, 0⟩], permanentCache := [], loadedCache := [],
        seqLoadStatus := fun _ => 0,
        fontLoadStatus := fun i => if i = 0 then 5 else if i = 1 then 2 else 0,
        seqNumEntries := 0, fontNumEntries := 2 }).fontLoadStatus 0
      = LOAD_STATUS_PERMANENT ∧
    (AudioHeap_ResetLoadStatus (fun _ i => i)
      { persistentCache := [⟨1, 0⟩], permanentCache := [], loadedCache := [],
        seqLoadStatus := fun _ => 0,
        fontLoadStatus := fun i => if i = 0 then 5 else if i = 1 then 2 else 0,
        seqNumEntries := 0, fontNumEntries := 2 }).fontLoadStatus 1
      = LOAD_STATUS_NOT_LOADED ∧
    (AudioHeap_ResetLoadStatus (fun _ i => i)
      { persistentCache := [⟨1, 0⟩], permanentCache := [], loadedCache := [],
        seqLoadStatus := fun _ => 0,
        fontLoadStatus := fun i => if i = 0 then 5 else if i = 1 then 2 else 0,
        seqNumEntries := 0, fontNumEntries := 2 }).persistentCache = [] := by
  have h := claim_C8 (fun _ i => i)
    { persistentCache := [⟨1, 0⟩], permanentCache := [], loadedCache := [],
      seqLoadStatus := fun _ => 0,
      fontLoadStatus := fun i => if i = 0 then 5 else if i = 1 then 2 else 0,
      seqNumEntries := 0, fontNumEntries := 2 } (fun _ _ => rfl)
  refine ⟨?_, ?_, h.1⟩
  · have h0 := h.2.1 0
    simpa [LOAD_STATUS_PERMANENT] using h0
  · have h1 := h.2.1 1
    simpa [LOAD_STATUS_PERMANENT, LOAD_STATUS_NOT_LOADED] using h1


/-! ## C2: all-or-nothing table growth -/

/-- C2: a sequence-tables growth attempt fails exactly when one of its
four buffer allocations fails, and on failure every buffer newly
allocated during the attempt has been freed and the state — table
contents, companion arrays (font table, flags, load status), capacity,
table pointers and the live allocation set — is identical to the
pre-attempt state (only the model's allocation ordinal advances); the
single-buffer samplebank growth enjoys the same all-or-nothing property. -/
theorem claim_C2 (s : SeqTablesState) (sb : SampleBankTablesState)
    (oracle oracleB : Nat → Bool) :
    ((AudioApi_GrowSequenceTablesM s oracle).1 = false ↔
      ¬(oracle 0 = true ∧ oracle 1 = true ∧ oracle 2 = true ∧
        oracle 3 = true)) ∧
    ((AudioApi_GrowSequenceTablesM s oracle).1 = false →
      (AudioApi_GrowSequenceTablesM s oracle).2
        = { s with heap :=
            ⟨(AudioApi_GrowSequenceTablesM s oracle).2.heap.nextPtr,
             s.heap.live⟩ }) ∧
    ((AudioApi_GrowSampleBankTablesM sb oracleB).1 = false ↔
      ¬ oracleB 0 = true) ∧
    ((AudioApi_GrowSampleBankTablesM sb oracleB).1 = false →
      (AudioApi_GrowSampleBankTablesM sb oracleB).2
        = { sb with heap :=
            ⟨(AudioApi_GrowSampleBankTablesM sb oracleB).2.heap.nextPtr,
             sb.heap.live⟩ }) := by
  refine ⟨?_, ?_, ?_, ?_⟩
  · cases h0 : oracle 0 <;> cases h1 : oracle 1 <;> cases h2 : oracle 2 <;>
      cases h3 : oracle 3 <;>
      simp [AudioApi_GrowSequenceTablesM, halloc, h0, h1, h2, h3]
  · intro hfail
    have hne1 : s.heap.nextPtr + 1 ≠ s.heap.nextPtr := by omega
    have hne2 : s.heap.nextPtr + 1 + 1 ≠ s.heap.nextPtr := by omega
    have hne3 : s.heap.nextPtr + 1 + 1 ≠ s.heap.nextPtr + 1 := by omega
    cases h0 : oracle 0 <;> cases h1 : oracle 1 <;> cases h2 : oracle 2 <;>
      cases h3 : oracle 3 <;>
      simp only [AudioApi_GrowSequenceTablesM, halloc, h0, h1, h2, h3,
        Bool.false_eq_true, if_false, if_true, hfree, List.erase_cons] at hfail ⊢ <;>
      simp_all [List.erase_cons, hne1, hne2, hne3]
  · cases hb : oracleB 0 <;>
      simp [AudioApi_GrowSampleBankTablesM, halloc, hb]
  · intro hfail
    cases hb : oracleB 0 <;>
      simp only [AudioApi_GrowSampleBankTablesM, halloc, hb,
        Bool.false_eq_true, if_false, if_true] at hfail ⊢ <;>
      simp_all


/-- C2 witness: with the third allocation (the flags buffer) forced to
fail, the growth attempt on a concrete state reports failure and leaves
capacity, contents and the live allocation list exactly as before. -/
theorem claim_C2_witness :
    (AudioApi_GrowSequenceTablesM
      { heap := ⟨50, [10, 11]⟩, capacity := 128,
        seqPtr := 10, seqIsRecompAlloc := true, seqNumEntries := 3,
        seqEntries := fun _ => zeroEntry,
        fontPtr := 11, fontIsRecompAlloc := true,
        fontEntries := fun _ => zeroFontMapEntry,
        flagsPtr := 1, flagsIsRecompAlloc := false, flags := fun _ => 0,
        statusPtr := 2, statusIsRecompAlloc := false, status := fun _ => 0 }
      (fun k => k != 2)).1 = false ∧
    (AudioApi_GrowSequenceTablesM
      { heap := ⟨50, [10, 11]⟩, capacity := 128,
        seqPtr := 10, seqIsRecompAlloc := true, seqNumEntries := 3,
        seqEntries := fun _ => zeroEntry,
        fontPtr := 11, fontIsRecompAlloc := true,
        fontEntries := fun _ => zeroFontMapEntry,
        flagsPtr := 1, flagsIsRecompAlloc := false, flags := fun _ => 0,
        statusPtr := 2, statusIsRecompAlloc := false, status := fun _ => 0 }
      (fun k => k != 2)).2
      = { heap := ⟨(AudioApi_GrowSequenceTablesM
            { heap := ⟨50, [10, 11]⟩, capacity := 128,
              seqPtr := 10, seqIsRecompAlloc := true, seqNumEntries := 3,
              seqEntries := fun _ => zeroEntry,
              fontPtr := 11, fontIsRecompAlloc := true,
              fontEntries := fun _ => zeroFontMapEntry,
              flagsPtr := 1, flagsIsRecompAlloc := false, flags := fun _ => 0,
              statusPtr := 2, statusIsRecompAlloc := false,
              status := fun _ => 0 }
            (fun k => k != 2)).2.heap.nextPtr, [10, 11]⟩,
          capacity := 128,
          seqPtr := 10, seqIsRecompAlloc := true, seqNumEntries := 3,
          seqEntries := fun _ => zeroEntry,
          fontPtr := 11, fontIsRecompAlloc := true,
          fontEntries := fun _ => zeroFontMapEntry,
          flagsPtr := 1, flagsIsRecompAlloc := false, flags := fun _ => 0,
          statusPtr := 2, statusIsRecompAlloc := false,
          status := fun _ => 0 } := by
  have h := claim_C2
    { heap := ⟨50, [10, 11]⟩, capacity := 128,
      seqPtr := 10, seqIsRecompAlloc := true, seqNumEntries := 3,
      seqEntries := fun _ => zeroEntry,
      fontPtr := 11, fontIsRecompAlloc := true,
      fontEntries := fun _ => zeroFontMapEntry,
      flagsPtr := 1, flagsIsRecompAlloc := false, flags := fun _ => 0,
      statusPtr := 2, statusIsRecompAlloc := false, status := fun _ => 0 }
    { heap := ⟨50, []⟩, capacity := 3, tblPtr := 0, tblIsRecompAlloc := false,
      numEntries := 3, entries := fun _ => zeroEntry }
    (fun k => k != 2) (fun _ => true)
  exact ⟨h.1.mpr (by decide), h.2.1 (h.1.mpr (by decide))⟩


/-! ## C1: phase-gated Replace -/

theorem sbReplace_fields (s : SampleBankState) (id : Nat)
    (e : AudioTableEntry) (a b : Bool) :
    (AudioApi_ReplaceSampleBank s id e a b).phase = s.phase ∧
    (AudioApi_ReplaceSampleBank s id e a b).numEntries = s.numEntries ∧
    (AudioApi_ReplaceSampleBank s id e a b).capacity = s.capacity := by
  unfold AudioApi_ReplaceSampleBank
  split_ifs <;> exact ⟨rfl, rfl, rfl⟩

theorem sbDrainStep_fields (s : SampleBankState)
    (cmd : RecompQueueCmd AudioTableEntry) :
    (AudioApi_SampleBankQueueDrain s cmd).phase = s.phase ∧
    (AudioApi_SampleBankQueueDrain s cmd).numEntries = s.numEntries ∧
    (AudioApi_SampleBankQueueDrain s cmd).capacity = s.capacity := by
  unfold AudioApi_SampleBankQueueDrain
  split_ifs
  · exact sbReplace_fields s cmd.arg0 cmd.data true true
  · exact ⟨rfl, rfl, rfl⟩

theorem sbDrainFold_fields (cmds : List (RecompQueueCmd AudioTableEntry)) :
    ∀ s : SampleBankState,
    (cmds.foldl AudioApi_SampleBankQueueDrain s).phase = s.phase ∧
    (cmds.foldl AudioApi_SampleBankQueueDrain s).numEntries = s.numEntries ∧
    (cmds.foldl AudioApi_SampleBankQueueDrain s).capacity = s.capacity := by
  induction cmds with
  | nil => intro s; exact ⟨rfl, rfl, rfl⟩
  | cons c cs ih =>
      intro s
      rw [List.foldl_cons]
      obtain ⟨h1, h2, h3⟩ := ih (AudioApi_SampleBankQueueDrain s c)
      obtain ⟨g1, g2, g3⟩ := sbDrainStep_fields s c
      exact ⟨h1.trans g1, h2.trans g2, h3.trans g3⟩

theorem sbDrainStep_replace (s : SampleBankState) (id : Nat)
    (e : AudioTableEntry) (hphase : s.phase = AUDIOAPI_INIT_QUEUED)
    (hid : id < s.numEntries) :
    SampleBank_Get (AudioApi_SampleBankQueueDrain s
      ⟨AUDIOAPI_CMD_OP_REPLACE_SAMPLEBANK, id, 0, e⟩) id = e := by
  simp only [AudioApi_SampleBankQueueDrain, AudioApi_ReplaceSampleBank, hphase]
  norm_num [AUDIOAPI_INIT_QUEUED, AUDIOAPI_INIT_NOT_READY,
    AUDIOAPI_INIT_QUEUEING]
  rw [if_neg (by omega : ¬ id ≥ s.numEntries)]
  simp [SampleBank_Get, tblUpdate]

theorem sbDrain_applies_last (cmds : List (RecompQueueCmd AudioTableEntry))
    (s : SampleBankState) (id : Nat) (e : AudioTableEntry)
    (hphase : s.phase = AUDIOAPI_INIT_QUEUED) (hid : id < s.numEntries) :
    SampleBank_Get
      ((cmds ++ [(⟨AUDIOAPI_CMD_OP_REPLACE_SAMPLEBANK, id, 0, e⟩ :
          RecompQueueCmd AudioTableEntry)]).foldl
        AudioApi_SampleBankQueueDrain s) id = e := by
  rw [List.foldl_append, List.foldl_cons, List.foldl_nil]
  obtain ⟨h1, h2, _⟩ := sbDrainFold_fields cmds s
  exact sbDrainStep_replace _ id e (by rw [h1, hphase]) (by rw [h2]; exact hid)


theorem seqReplace_fields (s : SequenceState) (id : Nat)
    (e : AudioTableEntry) (a b : Bool) :
    (AudioApi_ReplaceSequence s id e a b).phase = s.phase ∧
    (AudioApi_ReplaceSequence s id e a b).numEntries = s.numEntries ∧
    (AudioApi_ReplaceSequence s id e a b).capacity = s.capacity := by
  unfold AudioApi_ReplaceSequence
  split_ifs <;> exact ⟨rfl, rfl, rfl⟩

theorem seqDrainStep_fields (s : SequenceState)
    (cmd : RecompQueueCmd AudioTableEntry) :
    (AudioApi_SequenceQueueDrain s cmd).phase = s.phase ∧
    (AudioApi_SequenceQueueDrain s cmd).numEntries = s.numEntries ∧
    (AudioApi_SequenceQueueDrain s cmd).capacity = s.capacity := by
  unfold AudioApi_SequenceQueueDrain
  split_ifs
  · exact seqReplace_fields s cmd.arg0 cmd.data true true
  · exact ⟨rfl, rfl, rfl⟩

theorem seqDrainFold_fields (cmds : List (RecompQueueCmd AudioTableEntry)) :
    ∀ s : SequenceState,
    (cmds.foldl AudioApi_SequenceQueueDrain s).phase = s.phase ∧
    (cmds.foldl AudioApi_SequenceQueueDrain s).numEntries = s.numEntries ∧
    (cmds.foldl AudioApi_SequenceQueueDrain s).capacity = s.capacity := by
  induction cmds with
  | nil => intro s; exact ⟨rfl, rfl, rfl⟩
  | cons c cs ih =>
      intro s
      rw [List.foldl_cons]
      obtain ⟨h1, h2, h3⟩ := ih (AudioApi_SequenceQueueDrain s c)
      obtain ⟨g1, g2, g3⟩ := seqDrainStep_fields s c
      exact ⟨h1.trans g1, h2.trans g2, h3.trans g3⟩

theorem seqDrainStep_replace (s : SequenceState) (id : Nat)
    (e : AudioTableEntry) (hfrog : id ≠ NA_BGM_FROG_SONG)
    (hphase : s.phase = AUDIOAPI_INIT_QUEUED)
    (hid : id < s.numEntries) :
    Sequence_Get (AudioApi_SequenceQueueDrain s
      ⟨AUDIOAPI_CMD_OP_REPLACE_SEQUENCE, id, 0, e⟩) id = e := by
  simp only [AudioApi_SequenceQueueDrain, AudioApi_ReplaceSequence, hphase]
  norm_num [AUDIOAPI_INIT_QUEUED, AUDIOAPI_INIT_NOT_READY,
    AUDIOAPI_INIT_QUEUEING, hfrog]
  rw [if_neg (by omega : ¬ id ≥ s.numEntries)]
  simp [Sequence_Get, tblUpdate]

theorem seqDrain_applies_last (cmds : List (RecompQueueCmd AudioTableEntry))
    (s : SequenceState) (id : Nat) (e : AudioTableEntry)
    (hfrog : id ≠ NA_BGM_FROG_SONG)
    (hphase : s.phase = AUDIOAPI_INIT_QUEUED) (hid : id < s.numEntries) :
    Sequence_Get
      ((cmds ++ [(⟨AUDIOAPI_CMD_OP_REPLACE_SEQUENCE, id, 0, e⟩ :
          RecompQueueCmd AudioTableEntry)]).foldl
        AudioApi_SequenceQueueDrain s) id = e := by
  rw [List.foldl_append, List.foldl_cons, List.foldl_nil]
  obtain ⟨h1, h2, _⟩ := seqDrainFold_fields cmds s
  exact seqDrainStep_replace _ id e hfrog (by rw [h1, hphase])
    (by rw [h2]; exact hid)


theorem sbReplace_queueing (s : SampleBankState) (id : Nat)
    (e : AudioTableEntry) (hphase : s.phase = AUDIOAPI_INIT_QUEUEING)
    (habsent : RecompQueue_IsCmdNotQueued s.queue
      AUDIOAPI_CMD_OP_REPLACE_SAMPLEBANK id 0 = true) :
    (AudioApi_ReplaceSampleBank s id e true true).entries = s.entries ∧
    (AudioApi_ReplaceSampleBank s id e true true).queue.entries
      = s.queue.entries ++
        [⟨AUDIOAPI_CMD_OP_REPLACE_SAMPLEBANK, id, 0, e⟩] := by
  unfold AudioApi_ReplaceSampleBank
  rw [hphase]
  norm_num [AUDIOAPI_INIT_NOT_READY, AUDIOAPI_INIT_QUEUEING]
  unfold RecompQueue_PushIfNotQueued
  rw [habsent]
  norm_num
  exact (RecompQueue_Push_true s.queue _ id 0 e).2

theorem sbReplace_queueing_dup (s : SampleBankState) (id : Nat)
    (e2 : AudioTableEntry) (b : Bool)
    (hphase : s.phase = AUDIOAPI_INIT_QUEUEING)
    (hdup : RecompQueue_IsCmdNotQueued s.queue
      AUDIOAPI_CMD_OP_REPLACE_SAMPLEBANK id 0 = false) :
    AudioApi_ReplaceSampleBank s id e2 true b = s := by
  rcases s with ⟨ph, ne, cap, ent, q⟩
  simp only at hphase hdup
  unfold AudioApi_ReplaceSampleBank
  rw [hphase]
  norm_num [AUDIOAPI_INIT_NOT_READY, AUDIOAPI_INIT_QUEUEING]
  rw [pushIfNotQueued_dup q _ id 0 e2 b hdup]

theorem seqReplace_queueing (s : SequenceState) (id : Nat)
    (e : AudioTableEntry) (hfrog : id ≠ NA_BGM_FROG_SONG)
    (hphase : s.phase = AUDIOAPI_INIT_QUEUEING)
    (habsent : RecompQueue_IsCmdNotQueued s.queue
      AUDIOAPI_CMD_OP_REPLACE_SEQUENCE id 0 = true) :
    (AudioApi_ReplaceSequence s id e true true).entries = s.entries ∧
    (AudioApi_ReplaceSequence s id e true true).queue.entries
      = s.queue.entries ++
        [⟨AUDIOAPI_CMD_OP_REPLACE_SEQUENCE, id, 0, e⟩] := by
  unfold AudioApi_ReplaceSequence
  rw [hphase]
  norm_num [AUDIOAPI_INIT_NOT_READY, AUDIOAPI_INIT_QUEUEING, hfrog]
  unfold RecompQueue_PushIfNotQueued
  rw [habsent]
  norm_num
  exact (RecompQueue_Push_true s.queue _ id 0 e).2

theorem seqReplace_queueing_dup (s : SequenceState) (id : Nat)
    (e2 : AudioTableEntry) (b : Bool) (hfrog : id ≠ NA_BGM_FROG_SONG)
    (hphase : s.phase = AUDIOAPI_INIT_QUEUEING)
    (hdup : RecompQueue_IsCmdNotQueued s.queue
      AUDIOAPI_CMD_OP_REPLACE_SEQUENCE id 0 = false) :
    AudioApi_ReplaceSequence s id e2 true b = s := by
  rcases s with ⟨ph, ne, cap, ent, q, lg⟩
  simp only at hphase hdup
  unfold AudioApi_ReplaceSequence
  rw [hphase]
  norm_num [AUDIOAPI_INIT_NOT_READY, AUDIOAPI_INIT_QUEUEING, hfrog]
  rw [pushIfNotQueued_dup q _ id 0 e2 b hdup]


/-- C1 (amended): per-kind Replace is phase-gated — NotReady is a complete
no-op; during Queueing the mutation is heap-copied and deferred into the
init queue keyed on (op, id, 0) with duplicates discarded, leaving the
table (hence `Get id`) unchanged; at the Queueing -> Ready transition the
drain applies the deferred entry so `Get id` returns it and the phase is
Ready; at Ready a Replace of an in-range id applies immediately —
EXCEPT that the sequence-kind Replace ignores the frog-song sequence id
entirely at every phase past NotReady (only a one-shot log flag is set). -/
theorem claim_C1 (sb : SampleBankState) (sq : SequenceState) (id : Nat)
    (e e2 : AudioTableEntry) (a b : Bool) :
    (sb.phase = AUDIOAPI_INIT_NOT_READY →
      AudioApi_ReplaceSampleBank sb id e a b = sb) ∧
    (sb.phase = AUDIOAPI_INIT_QUEUEING →
      RecompQueue_IsCmdNotQueued sb.queue
        AUDIOAPI_CMD_OP_REPLACE_SAMPLEBANK id 0 = true →
      SampleBank_Get (AudioApi_ReplaceSampleBank sb id e true true) id
        = SampleBank_Get sb id ∧
      (AudioApi_ReplaceSampleBank sb id e true true).entries = sb.entries ∧
      (AudioApi_ReplaceSampleBank sb id e true true).queue.entries
        = sb.queue.entries ++
          [⟨AUDIOAPI_CMD_OP_REPLACE_SAMPLEBANK, id, 0, e⟩] ∧
      AudioApi_ReplaceSampleBank
        (AudioApi_ReplaceSampleBank sb id e true true) id e2 true b
        = AudioApi_ReplaceSampleBank sb id e true true ∧
      (id < sb.numEntries →
        SampleBank_Get (SampleBank_TransitionToReady
          (AudioApi_ReplaceSampleBank sb id e true true)) id = e ∧
        (SampleBank_TransitionToReady
          (AudioApi_ReplaceSampleBank sb id e true true)).phase
          = AUDIOAPI_INIT_READY)) ∧
    (sb.phase = AUDIOAPI_INIT_READY → id < sb.numEntries →
      SampleBank_Get (AudioApi_ReplaceSampleBank sb id e a b) id = e) ∧
    (sq.phase = AUDIOAPI_INIT_NOT_READY →
      AudioApi_ReplaceSequence sq id e a b = sq) ∧
    (id ≠ NA_BGM_FROG_SONG → sq.phase = AUDIOAPI_INIT_QUEUEING →
      RecompQueue_IsCmdNotQueued sq.queue
        AUDIOAPI_CMD_OP_REPLACE_SEQUENCE id 0 = true →
      Sequence_Get (AudioApi_ReplaceSequence sq id e true true) id
        = Sequence_Get sq id ∧
      (AudioApi_ReplaceSequence sq id e true true).entries = sq.entries ∧
      (AudioApi_ReplaceSequence sq id e true true).queue.entries
        = sq.queue.entries ++
          [⟨AUDIOAPI_CMD_OP_REPLACE_SEQUENCE, id, 0, e⟩] ∧
      AudioApi_ReplaceSequence
        (AudioApi_ReplaceSequence sq id e true true) id e2 true b
        = AudioApi_ReplaceSequence sq id e true true ∧
      (id < sq.numEntries →
        Sequence_Get (Sequence_TransitionToReady
          (AudioApi_ReplaceSequence sq id e true true)) id = e ∧
        (Sequence_TransitionToReady
          (AudioApi_ReplaceSequence sq id e true true)).phase
          = AUDIOAPI_INIT_READY)) ∧
    (id ≠ NA_BGM_FROG_SONG → sq.phase = AUDIOAPI_INIT_READY →
      id < sq.numEntries →
      Sequence_Get (AudioApi_ReplaceSequence sq id e a b) id = e) ∧
    (sq.phase ≠ AUDIOAPI_INIT_NOT_READY →
      AudioApi_ReplaceSequence sq NA_BGM_FROG_SONG e a b
        = { sq with loggedFrogIgnore := true }) := by
  refine ⟨?_, ?_, ?_, ?_, ?_, ?_, ?_⟩
  · intro h
    unfold AudioApi_ReplaceSampleBank
    rw [if_pos h]
  · intro hp ha
    obtain ⟨hent, hq⟩ := sbReplace_queueing sb id e hp ha
    have hfl := sbReplace_fields sb id e true true
    refine ⟨?_, hent, hq, ?_, ?_⟩
    · unfold SampleBank_Get
      rw [hent]
    · refine sbReplace_queueing_dup _ id e2 b (hfl.1.trans hp) ?_
      unfold RecompQueue_IsCmdNotQueued
      rw [hq]
      simp
    · intro hid
      constructor
      · have h0 : SampleBank_Get (SampleBank_TransitionToReady
            (AudioApi_ReplaceSampleBank sb id e true true)) id
            = SampleBank_Get
              (((AudioApi_ReplaceSampleBank sb id e true true).queue.entries).foldl
                AudioApi_SampleBankQueueDrain
                { AudioApi_ReplaceSampleBank sb id e true true with
                  phase := AUDIOAPI_INIT_QUEUED }) id := rfl
        rw [h0, hq]
        refine sbDrain_applies_last _ _ id e rfl ?_
        show id < (AudioApi_ReplaceSampleBank sb id e true true).numEntries
        rw [hfl.2.1]
        exact hid
      · rfl
  · intro hp hid
    unfold AudioApi_ReplaceSampleBank
    rw [hp]
    norm_num [AUDIOAPI_INIT_READY, AUDIOAPI_INIT_NOT_READY,
      AUDIOAPI_INIT_QUEUEING]
    rw [if_neg (by omega : ¬ id ≥ sb.numEntries)]
    simp [SampleBank_Get, tblUpdate]
  · intro h
    unfold AudioApi_ReplaceSequence
    rw [if_pos h]
  · intro hfrog hp ha
    obtain ⟨hent, hq⟩ := seqReplace_queueing sq id e hfrog hp ha
    have hfl := seqReplace_fields sq id e true true
    refine ⟨?_, hent, hq, ?_, ?_⟩
    · unfold Sequence_Get
      rw [hent]
    · refine seqReplace_queueing_dup _ id e2 b hfrog (hfl.1.trans hp) ?_
      unfold RecompQueue_IsCmdNotQueued
      rw [hq]
      simp
    · intro hid
      constructor
      · have h0 : Sequence_Get (Sequence_TransitionToReady
            (AudioApi_ReplaceSequence sq id e true true)) id
            = Sequence_Get
              (((AudioApi_ReplaceSequence sq id e true true).queue.entries).foldl
                AudioApi_SequenceQueueDrain
                { AudioApi_ReplaceSequence sq id e true true with
                  phase := AUDIOAPI_INIT_QUEUED }) id := rfl
        rw [h0, hq]
        refine seqDrain_applies_last _ _ id e hfrog rfl ?_
        show id < (AudioApi_ReplaceSequence sq id e true true).numEntries
        rw [hfl.2.1]
        exact hid
      · rfl
  · intro hfrog hp hid
    unfold AudioApi_ReplaceSequence
    rw [hp]
    norm_num [AUDIOAPI_INIT_READY, AUDIOAPI_INIT_NOT_READY,
      AUDIOAPI_INIT_QUEUEING, hfrog]
    rw [if_neg (by omega : ¬ id ≥ sq.numEntries)]
    simp [Sequence_Get, tblUpdate]
  · intro hnp
    unfold AudioApi_ReplaceSequence
    rw [if_neg hnp, if_pos rfl]


/-- C1 counterexample to the claim as stated: for the sequence kind at
phase Queueing, `Replace(NA_BGM_FROG_SONG, e)` is NOT deferred — the init
queue stays empty — and after the transition to Ready the table entry
still holds its prior (zero) value, not `e`; at Ready the Replace still
does not apply even though the id is in range. -/
theorem claim_C1_counterexample :
    (AudioApi_ReplaceSequence
      { phase := 1, numEntries := 256, capacity := 256,
        entries := fun _ => zeroEntry, queue := ⟨[], 16⟩,
        loggedFrogIgnore := false }
      NA_BGM_FROG_SONG ⟨1, 2, 3, 4, 5, 6, 7⟩ true true).queue.entries
      = [] ∧
    Sequence_Get (Sequence_TransitionToReady
      (AudioApi_ReplaceSequence
        { phase := 1, numEntries := 256, capacity := 256,
          entries := fun _ => zeroEntry, queue := ⟨[], 16⟩,
          loggedFrogIgnore := false }
        NA_BGM_FROG_SONG ⟨1, 2, 3, 4, 5, 6, 7⟩ true true))
      NA_BGM_FROG_SONG ≠ ⟨1, 2, 3, 4, 5, 6, 7⟩ ∧
    NA_BGM_FROG_SONG <
      ({ phase := 1, numEntries := 256, capacity := 256,
         entries := fun _ => zeroEntry, queue := ⟨[], 16⟩,
         loggedFrogIgnore := false } : SequenceState).numEntries := by
  refine ⟨rfl, ?_, by decide⟩
  intro h
  cases h

/-- C1 witness: a samplebank Replace of id 5 issued at phase Queueing is
deferred (queued, table untouched) and becomes visible through Get after
the transition to Ready. -/
theorem claim_C1_witness :
    (AudioApi_ReplaceSampleBank
      { phase := 1, numEntries := 8, capacity := 8,
        entries := fun _ => zeroEntry, queue := ⟨[], 16⟩ }
      5 ⟨1, 2, 3, 4, 5, 6, 7⟩ true true).queue.entries
      = [⟨AUDIOAPI_CMD_OP_REPLACE_SAMPLEBANK, 5, 0, ⟨1, 2, 3, 4, 5, 6, 7⟩⟩] ∧
    SampleBank_Get (SampleBank_TransitionToReady
      (AudioApi_ReplaceSampleBank
        { phase := 1, numEntries := 8, capacity := 8,
          entries := fun _ => zeroEntry, queue := ⟨[], 16⟩ }
        5 ⟨1, 2, 3, 4, 5, 6, 7⟩ true true)) 5 = ⟨1, 2, 3, 4, 5, 6, 7⟩ := by
  have h := (claim_C1
    { phase := 1, numEntries := 8, capacity := 8,
      entries := fun _ => zeroEntry, queue := ⟨[], 16⟩ }
    { phase := 1, numEntries := 256, capacity := 256,
      entries := fun _ => zeroEntry, queue := ⟨[], 16⟩,
      loggedFrogIgnore := false }
    5 ⟨1, 2, 3, 4, 5, 6, 7⟩ zeroEntry true true).2.1 rfl (by decide)
  exact ⟨h.2.2.1, (h.2.2.2.2 (by decide)).1⟩


/-! ## C5: id assignment by Add -/

theorem skipSentinelId_bounds (n : Nat) :
    n ≤ skipSentinelId n ∧ skipSentinelId n ≤ n + 2 := by
  unfold skipSentinelId
  split_ifs <;> omega

theorem skipSentinelId_not_sentinel (n : Nat) :
    skipSentinelId n % 256 ≠ 0xFE ∧ skipSentinelId n % 256 ≠ 0xFF := by
  unfold skipSentinelId
  split_ifs <;> omega

theorem addSeq_step (s : SequenceState) (e : AudioTableEntry)
    (hp : s.phase ≠ AUDIOAPI_INIT_NOT_READY)
    (hwf : s.numEntries ≤ s.capacity) (hcap4 : 4 ≤ s.capacity)
    (hcapB : s.capacity * 2 ≤ 32768) :
    (AudioApi_AddSequence s e true).1
      = some (skipSentinelId s.numEntries) ∧
    (AudioApi_AddSequence s e true).2.numEntries
      = skipSentinelId s.numEntries + 1 ∧
    (AudioApi_AddSequence s e true).2.phase = s.phase ∧
    (AudioApi_AddSequence s e true).2.entries
      (skipSentinelId s.numEntries) = e ∧
    (∀ j < s.numEntries,
      (AudioApi_AddSequence s e true).2.entries j = s.entries j) ∧
    (AudioApi_AddSequence s e true).2.numEntries
      ≤ (AudioApi_AddSequence s e true).2.capacity ∧
    s.capacity ≤ (AudioApi_AddSequence s e true).2.capacity ∧
    (AudioApi_AddSequence s e true).2.capacity ≤ s.capacity * 2 := by
  obtain ⟨hge, hle⟩ := skipSentinelId_bounds s.numEntries
  have hmod : s.capacity * 2 % 65536 = s.capacity * 2 :=
    Nat.mod_eq_of_lt (by omega)
  by_cases hg : skipSentinelId s.numEntries ≥ s.capacity
  · have hchar : AudioApi_AddSequence s e true
        = (some (skipSentinelId s.numEntries),
           { phase := s.phase,
             numEntries := skipSentinelId s.numEntries + 1,
             capacity := s.capacity * 2,
             entries := tblUpdate
               (fun i => if i < s.capacity then s.entries i else zeroEntry)
               (skipSentinelId s.numEntries) e,
             queue := s.queue,
             loggedFrogIgnore := s.loggedFrogIgnore }) := by
      simp [AudioApi_AddSequence, AudioApi_GrowSequenceTables, hp, hg, hmod]
    rw [hchar]
    refine ⟨rfl, rfl, rfl, by simp [tblUpdate], ?_, ?_, ?_, ?_⟩
    · intro j hj
      simp only [tblUpdate]
      rw [if_neg (by omega : ¬ j = skipSentinelId s.numEntries),
        if_pos (by omega : j < s.capacity)]
    · show skipSentinelId s.numEntries + 1 ≤ s.capacity * 2
      omega
    · show s.capacity ≤ s.capacity * 2
      omega
    · show s.capacity * 2 ≤ s.capacity * 2
      omega
  · have hchar : AudioApi_AddSequence s e true
        = (some (skipSentinelId s.numEntries),
           { phase := s.phase,
             numEntries := skipSentinelId s.numEntries + 1,
             capacity := s.capacity,
             entries := tblUpdate s.entries (skipSentinelId s.numEntries) e,
             queue := s.queue,
             loggedFrogIgnore := s.loggedFrogIgnore }) := by
      simp [AudioApi_AddSequence, AudioApi_GrowSequenceTables, hp, hg]
    rw [hchar]
    refine ⟨rfl, rfl, rfl, by simp [tblUpdate], ?_, ?_, ?_, ?_⟩
    · intro j hj
      simp only [tblUpdate]
      rw [if_neg (by omega : ¬ j = skipSentinelId s.numEntries)]
    · show skipSentinelId s.numEntries + 1 ≤ s.capacity
      omega
    · show s.capacity ≤ s.capacity
      omega
    · show s.capacity ≤ s.capacity * 2
      omega


theorem addSB_step (s : SampleBankState) (e : AudioTableEntry)
    (hp : s.phase ≠ AUDIOAPI_INIT_NOT_READY)
    (hwf : s.numEntries ≤ s.capacity) (hcap1 : 1 ≤ s.capacity)
    (hcapB : s.capacity * 2 ≤ 32768) :
    (AudioApi_AddSampleBank s e true).1 = some s.numEntries ∧
    (AudioApi_AddSampleBank s e true).2.numEntries = s.numEntries + 1 ∧
    (AudioApi_AddSampleBank s e true).2.phase = s.phase ∧
    (AudioApi_AddSampleBank s e true).2.entries s.numEntries = e ∧
    (∀ j < s.numEntries,
      (AudioApi_AddSampleBank s e true).2.entries j = s.entries j) ∧
    (AudioApi_AddSampleBank s e true).2.numEntries
      ≤ (AudioApi_AddSampleBank s e true).2.capacity ∧
    s.capacity ≤ (AudioApi_AddSampleBank s e true).2.capacity ∧
    (AudioApi_AddSampleBank s e true).2.capacity ≤ s.capacity * 2 := by
  have hmod : s.capacity * 2 % 65536 = s.capacity * 2 :=
    Nat.mod_eq_of_lt (by omega)
  by_cases hg : s.numEntries ≥ s.capacity
  · have hchar : AudioApi_AddSampleBank s e true
        = (some s.numEntries,
           { phase := s.phase,
             numEntries := s.numEntries + 1,
             capacity := s.capacity * 2,
             entries := tblUpdate
               (fun i => if i < s.capacity then s.entries i else zeroEntry)
               s.numEntries e,
             queue := s.queue }) := by
      simp [AudioApi_AddSampleBank, AudioApi_GrowSampleBankTables, hp, hg,
        hmod]
    rw [hchar]
    refine ⟨rfl, rfl, rfl, by simp [tblUpdate], ?_, ?_, ?_, ?_⟩
    · intro j hj
      simp only [tblUpdate]
      rw [if_neg (by omega : ¬ j = s.numEntries),
        if_pos (by omega : j < s.capacity)]
    · show s.numEntries + 1 ≤ s.capacity * 2
      omega
    · show s.capacity ≤ s.capacity * 2
      omega
    · show s.capacity * 2 ≤ s.capacity * 2
      omega
  · have hchar : AudioApi_AddSampleBank s e true
        = (some s.numEntries,
           { phase := s.phase,
             numEntries := s.numEntries + 1,
             capacity := s.capacity,
             entries := tblUpdate s.entries s.numEntries e,
             queue := s.queue }) := by
      simp [AudioApi_AddSampleBank, AudioApi_GrowSampleBankTables, hp, hg]
    rw [hchar]
    refine ⟨rfl, rfl, rfl, by simp [tblUpdate], ?_, ?_, ?_, ?_⟩
    · intro j hj
      simp only [tblUpdate]
      rw [if_neg (by omega : ¬ j = s.numEntries)]
    · show s.numEntries + 1 ≤ s.capacity
      omega
    · show s.capacity ≤ s.capacity
      omega
    · show s.capacity ≤ s.capacity * 2
      omega


theorem addSeqTrace_spec (es : List AudioTableEntry) : ∀ s : SequenceState,
    s.phase ≠ AUDIOAPI_INIT_NOT_READY →
    s.numEntries ≤ s.capacity → 4 ≤ s.capacity →
    s.capacity * 2 ^ es.length ≤ 32768 →
    ∃ ids : List Nat,
      (addSeqTrace s es).1 = ids.map some ∧
      ids.Pairwise (· < ·) ∧
      (∀ id ∈ ids, s.numEntries ≤ id ∧ id % 256 ≠ 0xFE ∧
        id % 256 ≠ 0xFF) ∧
      List.Forall₂ (fun e id => (addSeqTrace s es).2.entries id = e) es ids ∧
      s.numEntries ≤ (addSeqTrace s es).2.numEntries ∧
      (∀ j < s.numEntries, (addSeqTrace s es).2.entries j = s.entries j) ∧
      (addSeqTrace s es).2.phase = s.phase ∧
      (addSeqTrace s es).2.numEntries ≤ (addSeqTrace s es).2.capacity := by
  induction es with
  | nil =>
      intro s hp hwf hcap4 hcapB
      exact ⟨[], rfl, List.Pairwise.nil, by simp, List.Forall₂.nil,
        Nat.le_refl _, fun j _ => rfl, rfl, hwf⟩
  | cons e es ih =>
      intro s hp hwf hcap4 hcapB
      have hpow : s.capacity * 2 ≤ 32768 := by
        have h2 : 2 ≤ 2 ^ (e :: es).length := by
          have : (1 : Nat) ≤ (e :: es).length := by simp
          calc (2 : Nat) = 2 ^ 1 := rfl
          _ ≤ 2 ^ (e :: es).length := Nat.pow_le_pow_right (by norm_num) this
        have := Nat.mul_le_mul_left s.capacity h2
        omega
      obtain ⟨st1, st2, st3, st4, st5, st6, st7, st8⟩ :=
        addSeq_step s e hp hwf hcap4 hpow
      have hrec := ih (AudioApi_AddSequence s e true).2
        (by rw [st3]; exact hp) st6 (by omega)
        (by
          have hc : (AudioApi_AddSequence s e true).2.capacity * 2 ^ es.length
              ≤ s.capacity * 2 * 2 ^ es.length :=
            Nat.mul_le_mul_right _ st8
          have hc2 : s.capacity * 2 * 2 ^ es.length
              = s.capacity * 2 ^ (e :: es).length := by
            rw [List.length_cons, pow_succ]
            ring
          omega)
      obtain ⟨ids, h1, h2, h3, h4, h5, h6, h7, h8⟩ := hrec
      have hskip := skipSentinelId_bounds s.numEntries
      have hsent := skipSentinelId_not_sentinel s.numEntries
      refine ⟨skipSentinelId s.numEntries :: ids, ?_, ?_, ?_, ?_, ?_, ?_,
        ?_, ?_⟩
      · show (AudioApi_AddSequence s e true).1 ::
          (addSeqTrace (AudioApi_AddSequence s e true).2 es).1 = _
        rw [st1, h1]
        rfl
      · refine List.Pairwise.cons ?_ h2
        intro id hid
        have := (h3 id hid).1
        omega
      · intro id hid
        rcases List.mem_cons.mp hid with hh | ht
        · subst hh
          exact ⟨hskip.1, hsent.1, hsent.2⟩
        · have := h3 id ht
          refine ⟨?_, this.2.1, this.2.2⟩
          omega
      · refine List.Forall₂.cons ?_ h4
        show (addSeqTrace (AudioApi_AddSequence s e true).2 es).2.entries
          (skipSentinelId s.numEntries) = e
        rw [h6 (skipSentinelId s.numEntries) (by omega)]
        exact st4
      · show s.numEntries ≤
          (addSeqTrace (AudioApi_AddSequence s e true).2 es).2.numEntries
        omega
      · intro j hj
        show (addSeqTrace (AudioApi_AddSequence s e true).2 es).2.entries j
          = s.entries j
        rw [h6 j (by omega)]
        exact st5 j hj
      · show (addSeqTrace (AudioApi_AddSequence s e true).2 es).2.phase
          = s.phase
        rw [h7, st3]
      · exact h8


theorem addSBTrace_spec (es : List AudioTableEntry) :
    ∀ s : SampleBankState,
    s.phase ≠ AUDIOAPI_INIT_NOT_READY →
    s.numEntries ≤ s.capacity → 1 ≤ s.capacity →
    s.capacity * 2 ^ es.length ≤ 32768 →
    ∃ ids : List Nat,
      (addSampleBankTrace s es).1 = ids.map some ∧
      ids.Pairwise (· < ·) ∧
      (∀ id ∈ ids, s.numEntries ≤ id) ∧
      List.Forall₂
        (fun e id => (addSampleBankTrace s es).2.entries id = e) es ids ∧
      s.numEntries ≤ (addSampleBankTrace s es).2.numEntries ∧
      (∀ j < s.numEntries,
        (addSampleBankTrace s es).2.entries j = s.entries j) ∧
      (addSampleBankTrace s es).2.phase = s.phase ∧
      (addSampleBankTrace s es).2.numEntries
        ≤ (addSampleBankTrace s es).2.capacity := by
  induction es with
  | nil =>
      intro s hp hwf hcap1 hcapB
      exact ⟨[], rfl, List.Pairwise.nil, by simp, List.Forall₂.nil,
        Nat.le_refl _, fun j _ => rfl, rfl, hwf⟩
  | cons e es ih =>
      intro s hp hwf hcap1 hcapB
      have hpow : s.capacity * 2 ≤ 32768 := by
        have h2 : 2 ≤ 2 ^ (e :: es).length := by
          have : (1 : Nat) ≤ (e :: es).length := by simp
          calc (2 : Nat) = 2 ^ 1 := rfl
          _ ≤ 2 ^ (e :: es).length := Nat.pow_le_pow_right (by norm_num) this
        have := Nat.mul_le_mul_left s.capacity h2
        omega
      obtain ⟨st1, st2, st3, st4, st5, st6, st7, st8⟩ :=
        addSB_step s e hp hwf hcap1 hpow
      have hrec := ih (AudioApi_AddSampleBank s e true).2
        (by rw [st3]; exact hp) st6 (by omega)
        (by
          have hc : (AudioApi_AddSampleBank s e true).2.capacity *
              2 ^ es.length ≤ s.capacity * 2 * 2 ^ es.length :=
            Nat.mul_le_mul_right _ st8
          have hc2 : s.capacity * 2 * 2 ^ es.length
              = s.capacity * 2 ^ (e :: es).length := by
            rw [List.length_cons, pow_succ]
            ring
          omega)
      obtain ⟨ids, h1, h2, h3, h4, h5, h6, h7, h8⟩ := hrec
      refine ⟨s.numEntries :: ids, ?_, ?_, ?_, ?_, ?_, ?_, ?_, ?_⟩
      · show (AudioApi_AddSampleBank s e true).1 ::
          (addSampleBankTrace (AudioApi_AddSampleBank s e true).2 es).1 = _
        rw [st1, h1]
        rfl
      · refine List.Pairwise.cons ?_ h2
        intro id hid
        have := h3 id hid
        omega
      · intro id hid
        rcases List.mem_cons.mp hid with hh | ht
        · omega
        · have := h3 id ht
          omega
      · refine List.Forall₂.cons ?_ h4
        show (addSampleBankTrace (AudioApi_AddSampleBank s e true).2
          es).2.entries s.numEntries = e
        rw [h6 s.numEntries (by omega)]
        exact st4
      · show s.numEntries ≤
          (addSampleBankTrace (AudioApi_AddSampleBank s e true).2
            es).2.numEntries
        omega
      · intro j hj
        show (addSampleBankTrace (AudioApi_AddSampleBank s e true).2
          es).2.entries j = s.entries j
        rw [h6 j (by omega)]
        exact st5 j hj
      · show (addSampleBankTrace (AudioApi_AddSampleBank s e true).2
          es).2.phase = s.phase
        rw [h7, st3]
      · exact h8


/-- C5 (amended): over any run of Add calls (allocations succeeding,
capacities within the sane 16-bit range), each call succeeds and the
returned ids are strictly increasing, and `Get` of each returned id in
the final state yields the entry passed to the Add that returned it; at
Ready, Replace overwrites exactly its target id, so Get returns the most
recent Add/Replace value.  The sequence-kind Add never returns an id with
sentinel low byte 0xFE/0xFF; the samplebank-kind Add, however, assigns
the next sequential id `numEntries` WITHOUT sentinel skipping. -/
theorem claim_C5 (es : List AudioTableEntry) (sq : SequenceState)
    (sb : SampleBankState) (e : AudioTableEntry) (id : Nat) (a b : Bool) :
    (sq.phase ≠ AUDIOAPI_INIT_NOT_READY → sq.numEntries ≤ sq.capacity →
      4 ≤ sq.capacity → sq.capacity * 2 ^ es.length ≤ 32768 →
      ∃ ids : List Nat,
        (addSeqTrace sq es).1 = ids.map some ∧
        ids.Pairwise (· < ·) ∧
        (∀ i ∈ ids, i % 256 ≠ 0xFE ∧ i % 256 ≠ 0xFF) ∧
        List.Forall₂
          (fun e i => Sequence_Get (addSeqTrace sq es).2 i = e) es ids) ∧
    (sb.phase ≠ AUDIOAPI_INIT_NOT_READY → sb.numEntries ≤ sb.capacity →
      1 ≤ sb.capacity → sb.capacity * 2 ^ es.length ≤ 32768 →
      ∃ ids : List Nat,
        (addSampleBankTrace sb es).1 = ids.map some ∧
        ids.Pairwise (· < ·) ∧
        List.Forall₂
          (fun e i => SampleBank_Get (addSampleBankTrace sb es).2 i = e)
          es ids) ∧
    (sb.phase ≠ AUDIOAPI_INIT_NOT_READY → sb.numEntries ≤ sb.capacity →
      1 ≤ sb.capacity → sb.capacity * 2 ≤ 32768 →
      (AudioApi_AddSampleBank sb e true).1 = some sb.numEntries) ∧
    (id ≠ NA_BGM_FROG_SONG → sq.phase = AUDIOAPI_INIT_READY →
      id < sq.numEntries →
      Sequence_Get (AudioApi_ReplaceSequence sq id e a b) id = e ∧
      (∀ j, j ≠ id →
        Sequence_Get (AudioApi_ReplaceSequence sq id e a b) j
          = Sequence_Get sq j)) ∧
    (sb.phase = AUDIOAPI_INIT_READY → id < sb.numEntries →
      SampleBank_Get (AudioApi_ReplaceSampleBank sb id e a b) id = e ∧
      (∀ j, j ≠ id →
        SampleBank_Get (AudioApi_ReplaceSampleBank sb id e a b) j
          = SampleBank_Get sb j)) := by
  refine ⟨?_, ?_, ?_, ?_, ?_⟩
  · intro hp hwf hcap hcapB
    obtain ⟨ids, h1, h2, h3, h4, _⟩ := addSeqTrace_spec es sq hp hwf hcap hcapB
    exact ⟨ids, h1, h2, fun i hi => ⟨(h3 i hi).2.1, (h3 i hi).2.2⟩, h4⟩
  · intro hp hwf hcap hcapB
    obtain ⟨ids, h1, h2, _, h4, _⟩ := addSBTrace_spec es sb hp hwf hcap hcapB
    exact ⟨ids, h1, h2, h4⟩
  · intro hp hwf hcap hcapB
    exact (addSB_step sb e hp hwf hcap hcapB).1
  · intro hfrog hp hid
    have hchar : AudioApi_ReplaceSequence sq id e a b
        = { sq with entries := tblUpdate sq.entries id e } := by
      unfold AudioApi_ReplaceSequence
      rw [hp,
        if_neg (by norm_num [AUDIOAPI_INIT_READY, AUDIOAPI_INIT_NOT_READY] :
          ¬ AUDIOAPI_INIT_READY = AUDIOAPI_INIT_NOT_READY),
        if_neg hfrog,
        if_neg (by norm_num [AUDIOAPI_INIT_READY, AUDIOAPI_INIT_QUEUEING] :
          ¬ AUDIOAPI_INIT_READY = AUDIOAPI_INIT_QUEUEING),
        if_neg (by omega : ¬ id ≥ sq.numEntries)]
    rw [hchar]
    constructor
    · simp [Sequence_Get, tblUpdate]
    · intro j hj
      simp [Sequence_Get, tblUpdate, hj]
  · intro hp hid
    have hchar : AudioApi_ReplaceSampleBank sb id e a b
        = { sb with entries := tblUpdate sb.entries id e } := by
      unfold AudioApi_ReplaceSampleBank
      rw [hp,
        if_neg (by norm_num [AUDIOAPI_INIT_READY, AUDIOAPI_INIT_NOT_READY] :
          ¬ AUDIOAPI_INIT_READY = AUDIOAPI_INIT_NOT_READY),
        if_neg (by norm_num [AUDIOAPI_INIT_READY, AUDIOAPI_INIT_QUEUEING] :
          ¬ AUDIOAPI_INIT_READY = AUDIOAPI_INIT_QUEUEING),
        if_neg (by omega : ¬ id ≥ sb.numEntries)]
    rw [hchar]
    constructor
    · simp [SampleBank_Get, tblUpdate]
    · intro j hj
      simp [SampleBank_Get, tblUpdate, hj]

/-- C5 counterexample to the claim as stated: with 254 entries already
assigned, the samplebank-kind Add returns id 254, whose low byte is the
reserved sentinel 0xFE — sentinel low-byte ids ARE returned by this
kind's Add (no skipping), contradicting the claim's per-kind sentinel
guarantee. -/
theorem claim_C5_counterexample :
    (AudioApi_AddSampleBank
      { phase := 3, numEntries := 254, capacity := 384,
        entries := fun _ => zeroEntry, queue := ⟨[], 16⟩ }
      ⟨1, 2, 3, 4, 5, 6, 7⟩ true).1 = some 254 ∧
    254 % 256 = 0xFE := by
  constructor
  · rfl
  · rfl

/-- C5 witness: three sequence Adds starting from a state with 253
entries produce the strictly increasing ids 253, 256, 257 — skipping the
sentinel ids 254 and 255 — and Get returns each entry just added. -/
theorem claim_C5_witness :
    ∃ ids : List Nat,
      (addSeqTrace
        { phase := 3, numEntries := 253, capacity := 256,
          entries := fun _ => zeroEntry, queue := ⟨[], 16⟩,
          loggedFrogIgnore := false }
        [⟨1, 0, 0, 0, 0, 0, 0⟩, ⟨2, 0, 0, 0, 0, 0, 0⟩,
         ⟨3, 0, 0, 0, 0, 0, 0⟩]).1 = ids.map some ∧
      ids.Pairwise (· < ·) ∧
      (∀ i ∈ ids, i % 256 ≠ 0xFE ∧ i % 256 ≠ 0xFF) ∧
      List.Forall₂
        (fun e i => Sequence_Get (addSeqTrace
          { phase := 3, numEntries := 253, capacity := 256,
            entries := fun _ => zeroEntry, queue := ⟨[], 16⟩,
            loggedFrogIgnore := false }
          [⟨1, 0, 0, 0, 0, 0, 0⟩, ⟨2, 0, 0, 0, 0, 0, 0⟩,
           ⟨3, 0, 0, 0, 0, 0, 0⟩]).2 i = e)
        [⟨1, 0, 0, 0, 0, 0, 0⟩, ⟨2, 0, 0, 0, 0, 0, 0⟩,
         ⟨3, 0, 0, 0, 0, 0, 0⟩] ids :=
  (claim_C5 [⟨1, 0, 0, 0, 0, 0, 0⟩, ⟨2, 0, 0, 0, 0, 0, 0⟩,
      ⟨3, 0, 0, 0, 0, 0, 0⟩]
    { phase := 3, numEntries := 253, capacity := 256,
      entries := fun _ => zeroEntry, queue := ⟨[], 16⟩,
      loggedFrogIgnore := false }
    { phase := 3, numEntries := 3, capacity := 3,
      entries := fun _ => zeroEntry, queue := ⟨[], 16⟩ }
    zeroEntry 0 true true).1
    (by decide) (by decide) (by decide) (by decide)

end MMAudioApi
